import Mathlib

/-!
# Verification of the dms_tools2 core (codonvarianttable.py, neutcurve.py)

Shallow embedding of the variant-barcode/count-aggregation engine of
`src/dms_tools2/codonvarianttable.py` and of the four-parameter logistic
fitter of `src/dms_tools2/neutcurve.py`, together with theorems settling
the frozen claims C1..C10 about them.

Modelling conventions:
* pandas DataFrames are lists of structured rows; column projections are
  record fields.  Row order is part of the model (DataFrame equality in
  the code is order sensitive).
* Python exceptions are the `PyErr` type below; functions that can raise
  return `Except PyErr _` (or a `_ × Option PyErr` pair when the method
  mutates its object before it can raise, so that the state at raise
  time is visible).
* mutation-set strings (`"<wt><pos><mut>"` tokens, space delimited) are
  modelled as lists of structured `Mut` records; the regular expressions
  of the code become explicit well-formedness checks on the fields.
* machine floats of the curve fitter are modelled as rationals, with the
  floating-point power function `x ** y` an explicit function parameter
  `rpow`; the claims settled about the fitter are branch/wiring facts
  that do not depend on rounding.
-/

/-- Python exceptions raised (or reachable) in the modelled code. -/
inductive PyErr where
  /-- `ValueError(msg)` — the error used for all user-facing validation
  failures in the code (the spec taxonomy names: InvalidMutation,
  DuplicateMutation, DuplicateBarcode, UnknownLibrary, DuplicateSample,
  BarcodeSetMismatch, SchemaError, InvalidReference). -/
  | valueError (msg : String)
  /-- `KeyError(key)` from a failed dict lookup. -/
  | keyError (key : String)
  /-- failed `assert` statement. -/
  | assertionError
  /-- `IndexError` from an out-of-range sequence index. -/
  | indexError
  /-- `UnboundLocalError` — a local variable referenced before assignment. -/
  | unboundLocal (var : String)
  /-- `NameError` — a global name that does not exist. -/
  | nameError (var : String)
  /-- `pandas.errors.MergeError` from a violated `validate=` merge contract. -/
  | mergeError
deriving DecidableEq, Repr

/-! ## Generic list helpers (pandas primitives) -/

/-- Worker for `dedupFirst`, carrying the set of values already seen. -/
def dedupFirstAux {α : Type} [DecidableEq α] : List α → List α → List α
  | [], _ => []
  | a :: l, seen =>
      if a ∈ seen then dedupFirstAux l seen
      else a :: dedupFirstAux l (a :: seen)

/-- `Series.unique()` / `OrderedDict.fromkeys`: first occurrence of each
value, in order of appearance. -/
def dedupFirst {α : Type} [DecidableEq α] (l : List α) : List α :=
  dedupFirstAux l []

theorem mem_dedupFirstAux {α : Type} [DecidableEq α] (l : List α) :
    ∀ (seen : List α) (a : α),
      a ∈ dedupFirstAux l seen ↔ a ∈ l ∧ a ∉ seen := by
  induction l with
  | nil => intro seen a; simp [dedupFirstAux]
  | cons b l ih =>
    intro seen a
    simp only [dedupFirstAux]
    by_cases hb : b ∈ seen
    · rw [if_pos hb, ih]
      constructor
      · rintro ⟨h1, h2⟩; exact ⟨List.mem_cons_of_mem b h1, h2⟩
      · rintro ⟨h1, h2⟩
        rcases List.mem_cons.mp h1 with h1 | h1
        · subst h1; exact absurd hb h2
        · exact ⟨h1, h2⟩
    · rw [if_neg hb]
      constructor
      · intro h
        rcases List.mem_cons.mp h with h | h
        · subst h; exact ⟨List.mem_cons_self a l, hb⟩
        · rcases (ih (b :: seen) a).mp h with ⟨h1, h2⟩
          exact ⟨List.mem_cons_of_mem b h1,
            fun hc => h2 (List.mem_cons_of_mem b hc)⟩
      · rintro ⟨h1, h2⟩
        rcases List.mem_cons.mp h1 with h1 | h1
        · subst h1; exact List.mem_cons_self a _
        · by_cases hab : a = b
          · subst hab; exact List.mem_cons_self a _
          · refine List.mem_cons_of_mem b ((ih (b :: seen) a).mpr ⟨h1, ?_⟩)
            intro hc
            rcases List.mem_cons.mp hc with hc | hc
            · exact hab hc
            · exact h2 hc

theorem mem_dedupFirst {α : Type} [DecidableEq α] (l : List α) (a : α) :
    a ∈ dedupFirst l ↔ a ∈ l := by
  simp [dedupFirst, mem_dedupFirstAux]

theorem nodup_dedupFirstAux {α : Type} [DecidableEq α] (l : List α) :
    ∀ seen : List α, (dedupFirstAux l seen).Nodup := by
  induction l with
  | nil => intro seen; simp [dedupFirstAux]
  | cons b l ih =>
    intro seen
    simp only [dedupFirstAux]
    by_cases hb : b ∈ seen
    · simp only [hb, if_pos]; exact ih seen
    · simp only [hb, if_neg, not_false_iff]
      refine List.nodup_cons.mpr ⟨?_, ih (b :: seen)⟩
      intro hc
      exact ((mem_dedupFirstAux l (b :: seen) b).mp hc).2 (List.mem_cons_self b seen)

theorem nodup_dedupFirst {α : Type} [DecidableEq α] (l : List α) :
    (dedupFirst l).Nodup :=
  nodup_dedupFirstAux l []

/-- Index of a value in a list (used for the rank a `pandas.Categorical`
assigns to a value given its ordered category list). -/
def idxOf {α : Type} [DecidableEq α] (l : List α) (a : α) : Nat :=
  List.findIdx (· = a) l

/-- Python set equality of the elements of two lists. -/
def setEqB {α : Type} [DecidableEq α] (l₁ l₂ : List α) : Bool :=
  l₁.all (· ∈ l₂) && l₂.all (· ∈ l₁)

theorem setEqB_iff {α : Type} [DecidableEq α] (l₁ l₂ : List α) :
    setEqB l₁ l₂ = true ↔ ∀ a, a ∈ l₁ ↔ a ∈ l₂ := by
  simp only [setEqB, Bool.and_eq_true, List.all_eq_true, decide_eq_true_eq]
  constructor
  · rintro ⟨h1, h2⟩ a
    exact ⟨fun h => h1 a h, fun h => h2 a h⟩
  · intro h
    exact ⟨fun a ha => (h a).mp ha, fun a ha => (h a).mpr ha⟩

/-- Insertion step of `insertionSortBy`: insert `a` after every element
ordered no later than `a` (a stable insertion for a total preorder `le`). -/
def insertLe {α : Type} (le : α → α → Bool) (a : α) : List α → List α
  | [] => [a]
  | b :: l => if le b a then b :: insertLe le a l else a :: b :: l

/-- Stable insertion sort by a boolean total preorder, modelling
`DataFrame.sort_values` / Python `sorted`. -/
def insertionSortBy {α : Type} (le : α → α → Bool) : List α → List α
  | [] => []
  | a :: l => insertLe le a (insertionSortBy le l)

theorem insertLe_perm {α : Type} (le : α → α → Bool) (a : α) :
    ∀ l : List α, (insertLe le a l).Perm (a :: l) := by
  intro l
  induction l with
  | nil => simp [insertLe]
  | cons b l ih =>
    simp only [insertLe]
    by_cases h : le b a
    · simp only [h, if_pos]
      exact (ih.cons b).trans (List.Perm.swap a b l)
    · simp [h]

theorem insertionSortBy_perm {α : Type} (le : α → α → Bool) :
    ∀ l : List α, (insertionSortBy le l).Perm l := by
  intro l
  induction l with
  | nil => simp [insertionSortBy]
  | cons a l ih =>
    exact (insertLe_perm le a (insertionSortBy le l)).trans (ih.cons a)

theorem mem_insertionSortBy {α : Type} (le : α → α → Bool) (l : List α) (a : α) :
    a ∈ insertionSortBy le l ↔ a ∈ l :=
  (insertionSortBy_perm le l).mem_iff

theorem countP_insertionSortBy {α : Type} (le : α → α → Bool) (l : List α)
    (p : α → Bool) : (insertionSortBy le l).countP p = l.countP p :=
  (insertionSortBy_perm le l).countP_eq p

theorem insertLe_pairwise {α : Type} (le : α → α → Bool)
    (htot : ∀ a b, le a b = true ∨ le b a = true)
    (htrans : ∀ a b c, le a b = true → le b c = true → le a c = true)
    (a : α) (l : List α)
    (h : l.Pairwise (fun x y => le x y = true)) :
    (insertLe le a l).Pairwise (fun x y => le x y = true) := by
  induction l with
  | nil => simp [insertLe]
  | cons b l ih =>
    simp only [insertLe]
    rcases List.pairwise_cons.mp h with ⟨hb, hl⟩
    by_cases hba : le b a = true
    · simp only [hba, if_pos]
      refine List.pairwise_cons.mpr ⟨?_, ih hl⟩
      intro x hx
      rcases List.mem_cons.mp ((insertLe_perm le a l).mem_iff.mp hx) with hxa | hxl
      · subst hxa; exact hba
      · exact hb x hxl
    · simp only [hba, if_neg, Bool.false_eq_true, not_false_iff]
      have hab : le a b = true := (htot a b).resolve_right hba
      refine List.pairwise_cons.mpr ⟨?_, h⟩
      intro x hx
      rcases List.mem_cons.mp hx with hxb | hxl
      · subst hxb; exact hab
      · exact htrans a b x hab (hb x hxl)

theorem insertionSortBy_pairwise {α : Type} (le : α → α → Bool)
    (htot : ∀ a b, le a b = true ∨ le b a = true)
    (htrans : ∀ a b c, le a b = true → le b c = true → le a c = true)
    (l : List α) :
    (insertionSortBy le l).Pairwise (fun x y => le x y = true) := by
  induction l with
  | nil => simp [insertionSortBy]
  | cons a l ih => exact insertLe_pairwise le htot htrans a _ ih

/-- `l.getLastD d` is a member of `l` when `l` is nonempty. -/
theorem getLastD_mem {α : Type} (l : List α) (d : α) (h : l ≠ []) :
    l.getLastD d ∈ l := by
  induction l generalizing d with
  | nil => exact absurd rfl h
  | cons a l ih =>
    rw [List.getLastD_cons]
    by_cases hl : l = []
    · subst hl; simp
    · exact List.mem_cons_of_mem a (ih a hl)

/-- In a list sorted ascending, the head bounds every element below. -/
theorem headD_le_of_sorted {α : Type} [Preorder α] (l : List α) (d : α)
    (h : l.Pairwise (· ≤ ·)) : ∀ x ∈ l, l.headD d ≤ x := by
  cases l with
  | nil => intro x hx; exact absurd hx (List.not_mem_nil x)
  | cons a l =>
    intro x hx
    rcases List.mem_cons.mp hx with hx | hx
    · subst hx; exact le_refl x
    · exact (List.pairwise_cons.mp h).1 x hx

/-- In a list sorted ascending, the last element bounds every element above. -/
theorem le_getLastD_of_sorted {α : Type} [Preorder α] (l : List α) (d : α)
    (h : l.Pairwise (· ≤ ·)) : ∀ x ∈ l, x ≤ l.getLastD d := by
  induction l generalizing d with
  | nil => intro x hx; exact absurd hx (List.not_mem_nil x)
  | cons a l ih =>
    intro x hx
    rw [List.getLastD_cons]
    rcases List.pairwise_cons.mp h with ⟨ha, hl⟩
    rcases List.mem_cons.mp hx with hx | hx
    · subst hx
      by_cases hln : l = []
      · subst hln; simp
      · exact le_trans (ha _ (getLastD_mem l x hln)) (ih x hl _ (getLastD_mem l x hln))
    · exact ih a hl x hx

/-! ## neutcurve.py: the four-parameter logistic fitter

The model `f(c) = b + (t - b) / (1 + (c/m)^s)` is over floats in the
code; we model values as rationals and the float power `x ** y` as an
explicit function argument `rpow`, since the claims about the fitter
concern its branch structure and parameter wiring, not float rounding. -/

/-- `fourParamLogistic.evaluate(c, m, s, b, t)` (neutcurve.py line 327):
`b + (t - b) / (1 + (c / m)**s)`. -/
def evaluate (rpow : ℚ → ℚ → ℚ) (c m s b t : ℚ) : ℚ :=
  b + (t - b) / (1 + rpow (c / m) s)

/-- The four attributes `midpoint`, `slope`, `top`, `bottom` of a
`fourParamLogistic` object. -/
structure FitParams where
  midpoint : ℚ
  slope : ℚ
  top : ℚ
  bottom : ℚ
deriving DecidableEq, Repr

/-- A `fixtop` / `fixbottom` argument: `False` (fit the parameter) or a
number fixing it. -/
inductive FixArg where
  | free
  | fixed (v : ℚ)
deriving DecidableEq, Repr

/-- The parameters with which `evaluate` is called inside the local
residual function `func` (neutcurve.py lines 224-239), as a function of
the optimizer's parameter vector `popt`.  In every branch the positional
parameters are `(m, s, ...)`; in the both-free branch `func` is
`evaluate` itself, whose signature is `(c, m, s, b, t)`, so there
`popt[2]` is the bottom and `popt[3]` the top. -/
def funcParams : FixArg → FixArg → List ℚ → FitParams
  | .free, .free, p =>
      { midpoint := p.getD 0 0, slope := p.getD 1 0,
        bottom := p.getD 2 0, top := p.getD 3 0 }
  | .free, .fixed b0, p =>
      { midpoint := p.getD 0 0, slope := p.getD 1 0,
        bottom := b0, top := p.getD 2 0 }
  | .fixed t0, .free, p =>
      { midpoint := p.getD 0 0, slope := p.getD 1 0,
        bottom := p.getD 2 0, top := t0 }
  | .fixed t0, .fixed b0, p =>
      { midpoint := p.getD 0 0, slope := p.getD 1 0,
        bottom := b0, top := t0 }

/-- The `initguess` list passed to `scipy.optimize.curve_fit`
(neutcurve.py lines 226, 229, 233, 237), as a function of the current
(seed or fixed) attribute values.  Note the both-free order is
`[midpoint, slope, bottom, top]`, matching `evaluate`'s `(m, s, b, t)`. -/
def initGuess : FixArg → FixArg → FitParams → List ℚ
  | .free, .free, s => [s.midpoint, s.slope, s.bottom, s.top]
  | .free, .fixed _, s => [s.midpoint, s.slope, s.top]
  | .fixed _, .free, s => [s.midpoint, s.slope, s.bottom]
  | .fixed _, .fixed _, s => [s.midpoint, s.slope]

/-- The attribute values unpacked from the optimizer's result `popt`
(neutcurve.py lines 248-255); fixed parameters keep their caller
supplied values.  Note the both-free branch unpacks
`(midpoint, slope, top, bottom) = popt`. -/
def unpackParams : FixArg → FixArg → List ℚ → FitParams
  | .free, .free, p =>
      { midpoint := p.getD 0 0, slope := p.getD 1 0,
        top := p.getD 2 0, bottom := p.getD 3 0 }
  | .free, .fixed b0, p =>
      { midpoint := p.getD 0 0, slope := p.getD 1 0,
        top := p.getD 2 0, bottom := b0 }
  | .fixed t0, .free, p =>
      { midpoint := p.getD 0 0, slope := p.getD 1 0,
        bottom := p.getD 2 0, top := t0 }
  | .fixed t0, .fixed b0, p =>
      { midpoint := p.getD 0 0, slope := p.getD 1 0,
        top := t0, bottom := b0 }

/-- The state of a fitted `fourParamLogistic` object used by `ic50` and
`ic50_str`: the sorted concentration array and the four fitted
parameters. -/
structure NeutFit where
  cs : List ℚ
  midpoint : ℚ
  slope : ℚ
  top : ℚ
  bottom : ℚ
deriving DecidableEq, Repr

/-- The closed-form candidate IC50 (neutcurve.py lines 286-287):
`midpoint * ((top - 0.5) / (0.5 - bottom))**(1.0 / slope)`. -/
def ic50val (rpow : ℚ → ℚ → ℚ) (N : NeutFit) : ℚ :=
  N.midpoint * rpow ((N.top - 1/2) / (1/2 - N.bottom)) (1 / N.slope)

/-- `fourParamLogistic.ic50(extrapolate)` (neutcurve.py lines 258-291). -/
def ic50 (rpow : ℚ → ℚ → ℚ) (N : NeutFit) (extrapolate : Bool) : Option ℚ :=
  if N.slope = 0 ∨ N.top = N.bottom ∨ ((1/2 : ℚ) < N.top ↔ (1/2 : ℚ) < N.bottom) then
    none
  else if (N.cs.headD 0 ≤ ic50val rpow N ∧ ic50val rpow N ≤ N.cs.getLastD 0) ∨
      extrapolate = true then
    some (ic50val rpow N)
  else none

/-- `fourParamLogistic.ic50_str()` (neutcurve.py lines 294-315); the
LaTeX scientific-notation formatter `dms_tools2.plot.latexSciNot` lives
in the out-of-scope plotting module and is a function parameter
`sciNot`.  The code drops the first character (the opening dollar of the
formatted value) before prefixing the bound marker. -/
def ic50_str (rpow : ℚ → ℚ → ℚ) (sciNot : ℚ → String) (N : NeutFit) : String :=
  match ic50 rpow N true with
  | none => "NA"
  | some v =>
    if N.cs.getLastD 0 < v then "$>" ++ (sciNot (N.cs.getLastD 0)).drop 1
    else if v < N.cs.headD 0 then "$<" ++ (sciNot (N.cs.headD 0)).drop 1
    else sciNot v

/-- `l.headD d` is a member of `l` when `l` is nonempty. -/
theorem headD_mem {α : Type} (l : List α) (d : α) (h : l ≠ []) :
    l.headD d ∈ l := by
  cases l with
  | nil => exact absurd rfl h
  | cons a l => simp

/-- C4: the claim states that after fitting, each free parameter
attribute equals the optimizer's fitted value for that same parameter of
the residual function, in particular when both top and bottom are free.
The code violates this: with both free the residual function is
`evaluate(c, m, s, b, t)` (so the optimizer's vector is
`(midpoint, slope, bottom, top)`, matching `initguess`), but the code
unpacks `(self.midpoint, self.slope, self.top, self.bottom) = popt`,
assigning the fitted bottom to `top` and the fitted top to `bottom`.
Concretely at `popt = [1, 2, 3, 4]` the attribute `top` is `3` while the
residual function's top parameter is `popt[3] = 4` (and symmetrically
for `bottom`); the `initguess` wiring and the three other branches are
consistent. -/
theorem c4_unpack_swaps_top_and_bottom :
    funcParams .free .free (initGuess .free .free ⟨1, 2, 4, 3⟩) = ⟨1, 2, 4, 3⟩ ∧
    (unpackParams .free .free [1, 2, 3, 4]).top = 3 ∧
    (funcParams .free .free [1, 2, 3, 4]).top = 4 ∧
    (unpackParams .free .free [1, 2, 3, 4]).bottom = 4 ∧
    (funcParams .free .free [1, 2, 3, 4]).bottom = 3 ∧
    unpackParams .free (.fixed 0) [1, 2, 3] = funcParams .free (.fixed 0) [1, 2, 3] ∧
    unpackParams (.fixed 1) .free [1, 2, 3] = funcParams (.fixed 1) .free [1, 2, 3] ∧
    unpackParams (.fixed 1) (.fixed 0) [1, 2] = funcParams (.fixed 1) (.fixed 0) [1, 2] := by
  refine ⟨rfl, rfl, rfl, rfl, rfl, rfl, rfl, rfl⟩

/-- C5: `ic50` returns `None` exactly when `slope == 0`, or
`top == bottom`, or top and bottom are on the same side of `0.5`
(both above or both not above), or — only when `extrapolate` is `False`
— the computed value `midpoint * ((top-0.5)/(0.5-bottom))**(1/slope)`
lies outside the closed interval `[min(cs), max(cs)]`; otherwise it
returns that value.  Since `__init__` sorts `cs` ascending, `cs[0]` is
`min(cs)` and `cs[-1]` is `max(cs)`, which the first four conjuncts
record. -/
theorem c5_ic50_none_iff (rpow : ℚ → ℚ → ℚ) (N : NeutFit) (extrapolate : Bool)
    (hne : N.cs ≠ []) (hsorted : N.cs.Pairwise (· ≤ ·)) :
    (∀ x ∈ N.cs, N.cs.headD 0 ≤ x) ∧ (∀ x ∈ N.cs, x ≤ N.cs.getLastD 0) ∧
    N.cs.headD 0 ∈ N.cs ∧ N.cs.getLastD 0 ∈ N.cs ∧
    (ic50 rpow N extrapolate = none ↔
      N.slope = 0 ∨ N.top = N.bottom ∨ ((1/2 : ℚ) < N.top ↔ (1/2 : ℚ) < N.bottom) ∨
        (extrapolate = false ∧
          (ic50val rpow N < N.cs.headD 0 ∨ N.cs.getLastD 0 < ic50val rpow N))) ∧
    (∀ v, ic50 rpow N extrapolate = some v → v = ic50val rpow N) := by
  refine ⟨headD_le_of_sorted _ _ hsorted, le_getLastD_of_sorted _ _ hsorted,
    headD_mem _ _ hne, getLastD_mem _ _ hne, ?_, ?_⟩
  · unfold ic50
    by_cases h1 : N.slope = 0 ∨ N.top = N.bottom ∨
        ((1/2 : ℚ) < N.top ↔ (1/2 : ℚ) < N.bottom)
    · rw [if_pos h1]
      exact iff_of_true rfl (by tauto)
    · rw [if_neg h1]
      by_cases h2 : (N.cs.headD 0 ≤ ic50val rpow N ∧
          ic50val rpow N ≤ N.cs.getLastD 0) ∨ extrapolate = true
      · rw [if_pos h2]
        apply iff_of_false
        · simp
        · rintro (h | h | h | ⟨hex, hout⟩)
          · exact h1 (Or.inl h)
          · exact h1 (Or.inr (Or.inl h))
          · exact h1 (Or.inr (Or.inr h))
          · rcases h2 with ⟨hl, hr⟩ | hext
            · rcases hout with o | o
              · exact absurd hl (not_le.mpr o)
              · exact absurd hr (not_le.mpr o)
            · rw [hext] at hex; cases hex
      · rw [if_neg h2]
        apply iff_of_true rfl
        push_neg at h2
        rcases h2 with ⟨h2a, h2b⟩
        refine Or.inr (Or.inr (Or.inr ⟨by
          cases hB : extrapolate with
          | false => rfl
          | true => exact absurd hB h2b, ?_⟩))
        by_cases h : N.cs.headD 0 ≤ ic50val rpow N
        · exact Or.inr (h2a h)
        · exact Or.inl (not_le.mp h)
  · intro v0 hsome
    unfold ic50 at hsome
    split_ifs at hsome
    exact (Option.some.inj hsome).symm

/-- C5 witness: at `cs = [1, 2]`, `midpoint = slope = top = 1`,
`bottom = 0`, `extrapolate = false` and `rpow x y = x * y`, the
hypotheses of `c5_ic50_none_iff` hold and its characterization follows. -/
theorem c5_witness :
    ((⟨[1, 2], 1, 1, 1, 0⟩ : NeutFit).cs ≠ [] ∧
      (⟨[1, 2], 1, 1, 1, 0⟩ : NeutFit).cs.Pairwise (· ≤ ·)) ∧
    (ic50 (fun x y => x * y) ⟨[1, 2], 1, 1, 1, 0⟩ false = none ↔
      (⟨[1, 2], 1, 1, 1, 0⟩ : NeutFit).slope = 0 ∨
      (⟨[1, 2], 1, 1, 1, 0⟩ : NeutFit).top = (⟨[1, 2], 1, 1, 1, 0⟩ : NeutFit).bottom ∨
      ((1/2 : ℚ) < (⟨[1, 2], 1, 1, 1, 0⟩ : NeutFit).top ↔
        (1/2 : ℚ) < (⟨[1, 2], 1, 1, 1, 0⟩ : NeutFit).bottom) ∨
      (false = false ∧
        (ic50val (fun x y => x * y) ⟨[1, 2], 1, 1, 1, 0⟩ <
            (⟨[1, 2], 1, 1, 1, 0⟩ : NeutFit).cs.headD 0 ∨
          (⟨[1, 2], 1, 1, 1, 0⟩ : NeutFit).cs.getLastD 0 <
            ic50val (fun x y => x * y) ⟨[1, 2], 1, 1, 1, 0⟩))) :=
  ⟨⟨by decide, by decide⟩,
    (c5_ic50_none_iff (fun x y => x * y) ⟨[1, 2], 1, 1, 1, 0⟩ false
      (by decide) (by decide)).2.2.2.2.1⟩

/-- C9: `ic50_str` computes the IC50 with extrapolation always enabled
(`ic50(extrapolate=True)`), so the solution is undefined exactly under
the parameter conditions of `ic50` (never because of the concentration
range); it returns the sentinel `"NA"` when undefined, a greater-than
bound string anchored at the highest tested concentration when the
solution exceeds it, a less-than bound string anchored at the lowest
when below it, and otherwise the plain formatted value. -/
theorem c9_ic50_str_cases (rpow : ℚ → ℚ → ℚ) (sciNot : ℚ → String)
    (N : NeutFit) (hne : N.cs ≠ []) (hsorted : N.cs.Pairwise (· ≤ ·)) :
    ((N.slope = 0 ∨ N.top = N.bottom ∨
        ((1/2 : ℚ) < N.top ↔ (1/2 : ℚ) < N.bottom)) →
      ic50 rpow N true = none ∧ ic50_str rpow sciNot N = "NA") ∧
    (¬(N.slope = 0 ∨ N.top = N.bottom ∨
        ((1/2 : ℚ) < N.top ↔ (1/2 : ℚ) < N.bottom)) →
      ic50 rpow N true = some (ic50val rpow N) ∧
      (N.cs.getLastD 0 < ic50val rpow N →
        ic50_str rpow sciNot N = "$>" ++ (sciNot (N.cs.getLastD 0)).drop 1) ∧
      (ic50val rpow N < N.cs.headD 0 →
        ic50_str rpow sciNot N = "$<" ++ (sciNot (N.cs.headD 0)).drop 1) ∧
      (N.cs.headD 0 ≤ ic50val rpow N ∧ ic50val rpow N ≤ N.cs.getLastD 0 →
        ic50_str rpow sciNot N = sciNot (ic50val rpow N))) := by
  constructor
  · intro h1
    have hnone : ic50 rpow N true = none := by
      unfold ic50; rw [if_pos h1]
    refine ⟨hnone, ?_⟩
    unfold ic50_str
    rw [hnone]
  · intro h1
    have hsome : ic50 rpow N true = some (ic50val rpow N) := by
      unfold ic50; rw [if_neg h1, if_pos (Or.inr rfl)]
    refine ⟨hsome, ?_, ?_, ?_⟩
    · intro hgt
      unfold ic50_str
      rw [hsome]
      dsimp only
      rw [if_pos hgt]
    · intro hlt
      have hhl : N.cs.headD 0 ≤ N.cs.getLastD 0 :=
        le_getLastD_of_sorted _ _ hsorted _ (headD_mem _ _ hne)
      have hnotgt : ¬ N.cs.getLastD 0 < ic50val rpow N :=
        not_lt.mpr (le_trans (le_of_lt hlt) hhl)
      unfold ic50_str
      rw [hsome]
      dsimp only
      rw [if_neg hnotgt, if_pos hlt]
    · rintro ⟨hl, hr⟩
      unfold ic50_str
      rw [hsome]
      dsimp only
      rw [if_neg (not_lt.mpr hr), if_neg (not_lt.mpr hl)]

/-- C9 witness: with the parameters of `c5_witness` (the curve crosses
one half, so the IC50 is defined) and a concrete formatter, the
hypotheses of `c9_ic50_str_cases` hold and its defined-case conclusion
follows. -/
theorem c9_witness :
    ((⟨[1, 2], 1, 1, 1, 0⟩ : NeutFit).cs ≠ [] ∧
      (⟨[1, 2], 1, 1, 1, 0⟩ : NeutFit).cs.Pairwise (· ≤ ·)) ∧
    (¬((⟨[1, 2], 1, 1, 1, 0⟩ : NeutFit).slope = 0 ∨
        (⟨[1, 2], 1, 1, 1, 0⟩ : NeutFit).top = (⟨[1, 2], 1, 1, 1, 0⟩ : NeutFit).bottom ∨
        ((1/2 : ℚ) < (⟨[1, 2], 1, 1, 1, 0⟩ : NeutFit).top ↔
          (1/2 : ℚ) < (⟨[1, 2], 1, 1, 1, 0⟩ : NeutFit).bottom)) →
      ic50 (fun x y => x * y) ⟨[1, 2], 1, 1, 1, 0⟩ true =
        some (ic50val (fun x y => x * y) ⟨[1, 2], 1, 1, 1, 0⟩) ∧
      ((⟨[1, 2], 1, 1, 1, 0⟩ : NeutFit).cs.getLastD 0 <
          ic50val (fun x y => x * y) ⟨[1, 2], 1, 1, 1, 0⟩ →
        ic50_str (fun x y => x * y) (fun q => "$" ++ toString q.num) ⟨[1, 2], 1, 1, 1, 0⟩ =
          "$>" ++ ((fun q : ℚ => "$" ++ toString q.num)
            ((⟨[1, 2], 1, 1, 1, 0⟩ : NeutFit).cs.getLastD 0)).drop 1) ∧
      (ic50val (fun x y => x * y) ⟨[1, 2], 1, 1, 1, 0⟩ <
          (⟨[1, 2], 1, 1, 1, 0⟩ : NeutFit).cs.headD 0 →
        ic50_str (fun x y => x * y) (fun q => "$" ++ toString q.num) ⟨[1, 2], 1, 1, 1, 0⟩ =
          "$<" ++ ((fun q : ℚ => "$" ++ toString q.num)
            ((⟨[1, 2], 1, 1, 1, 0⟩ : NeutFit).cs.headD 0)).drop 1) ∧
      ((⟨[1, 2], 1, 1, 1, 0⟩ : NeutFit).cs.headD 0 ≤
          ic50val (fun x y => x * y) ⟨[1, 2], 1, 1, 1, 0⟩ ∧
        ic50val (fun x y => x * y) ⟨[1, 2], 1, 1, 1, 0⟩ ≤
          (⟨[1, 2], 1, 1, 1, 0⟩ : NeutFit).cs.getLastD 0 →
        ic50_str (fun x y => x * y) (fun q => "$" ++ toString q.num) ⟨[1, 2], 1, 1, 1, 0⟩ =
          (fun q : ℚ => "$" ++ toString q.num)
            (ic50val (fun x y => x * y) ⟨[1, 2], 1, 1, 1, 0⟩))) :=
  ⟨⟨by decide, by decide⟩,
    (c9_ic50_str_cases (fun x y => x * y) (fun q => "$" ++ toString q.num)
      ⟨[1, 2], 1, 1, 1, 0⟩ (by decide) (by decide)).2⟩

/-! ## Mutation records and Python sequence primitives -/

/-- One `"<wt><pos><mut>"` token of a codon- or amino-acid-level
mutation set; amino-acid symbols are singleton character lists, codons
three-character lists (the string form is a parsing boundary per the
spec; internally mutation sets are ordered collections of these
records). -/
structure Mut where
  wt : List Char
  site : Nat
  mutant : List Char
deriving DecidableEq, Repr

/-- Serialization of a mutation record back to its token. -/
def Mut.str (m : Mut) : String :=
  String.mk m.wt ++ toString m.site ++ String.mk m.mutant

/-- One `"<wt><pos><mut>"` token of a nucleotide-level mutation set. -/
structure NtMut where
  wt : Char
  pos : Nat
  mutant : Char
deriving DecidableEq, Repr

/-- Serialization of a nucleotide mutation record back to its token. -/
def NtMut.str (m : NtMut) : String :=
  String.mk [m.wt] ++ toString m.pos ++ String.mk [m.mutant]

/-- Is a character in the `[ATCG]` class of the mutation regexes? -/
def isNt (c : Char) : Bool :=
  c = 'A' || c = 'T' || c = 'C' || c = 'G'

/-- Python sequence indexing `l[i]`, with negative-index wrap-around and
`IndexError` out of range. -/
def pyGet {α : Type} (l : List α) (i : Int) : Except PyErr α :=
  let j : Int := if i < 0 then i + l.length else i
  if h : 0 ≤ j ∧ j.toNat < l.length then .ok (l.get ⟨j.toNat, h.2⟩)
  else .error .indexError

/-- Python slice `l[a : b]`: negative indices wrap, then both bounds are
clamped to `[0, len]`. -/
def pySlice {α : Type} (l : List α) (a b : Int) : List α :=
  let n : Int := l.length
  let a' : Int := if a < 0 then max 0 (a + n) else min a n
  let b' : Int := if b < 0 then max 0 (b + n) else min b n
  (l.drop a'.toNat).take (b' - a').toNat

/-- Number of codon sites of a gene: `len(geneseq) // 3`. -/
def nSites (gene : List Char) : Nat := gene.length / 3

/-- `self.sites = list(range(1, len(geneseq) // 3 + 1))`. -/
def sitesOf (gene : List Char) : List Nat := List.range' 1 (nSites gene)

/-- The wildtype codon of a (1-based) site:
`geneseq[3 * (r - 1) : 3 * r]` for a valid site. -/
def codonAt (gene : List Char) (r : Nat) : List Char :=
  (gene.drop (3 * (r - 1))).take 3

/-- Lookup in the `self.codons` ordered dict, whose keys are the valid
sites; a key outside them raises `KeyError`. -/
def codonsDictGet (gene : List Char) (r : Int) : Except PyErr (List Char) :=
  if 1 ≤ r ∧ r ≤ (nSites gene : Int) then .ok (codonAt gene r.toNat)
  else .error (.keyError (toString r))

/-- Lookup in the `self.aas` ordered dict (`CODON_TO_AA[codons[r]]` for
each valid site `r`); `codonToAA` is the genetic-code table imported
from the package root. -/
def aasDictGet (codonToAA : List Char → Char) (gene : List Char) (r : Int) :
    Except PyErr Char :=
  if 1 ≤ r ∧ r ≤ (nSites gene : Int) then .ok (codonToAA (codonAt gene r.toNat))
  else .error (.keyError (toString r))

/-! ## `CodonVariantTable._ntToCodonMuts` (codonvarianttable.py 1938-1995) -/

/-- The `mut_codons` accumulator: per codon site (as hit, a Python int
that can be `0` for position-0 input), the `(i_nt, mut_nt)` pairs in
insertion order. -/
def mcGet (mc : List (Int × List (Nat × Char))) (r : Int) : List (Nat × Char) :=
  ((mc.find? (·.1 = r)).map (·.2)).getD []

/-- `mut_codons[icodon].add((i_nt, mut_nt))` on the accumulator. -/
def mcAdd (mc : List (Int × List (Nat × Char))) (r : Int) (p : Nat × Char) :
    List (Int × List (Nat × Char)) :=
  if mc.any (·.1 = r) then
    mc.map (fun q => if q.1 = r then (q.1, q.2 ++ [p]) else q)
  else mc ++ [(r, [p])]

/-- One iteration of the `for mut in nt_mut_str.upper().split()` loop of
`_ntToCodonMuts` (lines 1966-1985), in the code's check order. -/
def ntStep (gene : List Char) (mc : List (Int × List (Nat × Char)))
    (m : NtMut) : Except PyErr (List (Int × List (Nat × Char))) :=
  -- regex `^([ATCG])(\d+)([ATCG])$`; a structured token can only fail
  -- the character classes
  if ¬(isNt m.wt = true ∧ isNt m.mutant = true) then
    .error (.valueError ("invalid mutation " ++ m.str))
  else if m.wt = m.mutant then
    .error (.valueError ("invalid mutation " ++ m.str))
  else if (gene.length : Int) < (m.pos : Int) then
    .error (.valueError ("invalid nucleotide site " ++ toString m.pos))
  else
    -- `self.geneseq[i - 1]`: for i = 0 Python's negative indexing reads
    -- the LAST nucleotide of the gene
    match pyGet gene ((m.pos : Int) - 1) with
    | .error e => .error e
    | .ok ref =>
      if ref ≠ m.wt then
        .error (.valueError ("nucleotide " ++ toString m.pos ++ " should be " ++
          String.mk [ref] ++ " not " ++ String.mk [m.wt]))
      else
        -- `icodon = (i - 1) // 3 + 1` and `i_nt = (i - 1) % 3` with
        -- Python floor division and remainder, inlined below.
        -- `assert self.codons[icodon][i_nt] == wt_nt`: the dict lookup
        -- can raise KeyError (icodon = 0 for a position-0 mutation)
        -- before the assert itself is evaluated
        match codonsDictGet gene (((m.pos : Int) - 1).fdiv 3 + 1) with
        | .error e => .error e
        | .ok cod =>
          match pyGet cod (((m.pos : Int) - 1).emod 3) with
          | .error e => .error e
          | .ok cnt =>
            if cnt ≠ m.wt then .error .assertionError
            -- `if i_nt in mut_codons[icodon]`: Python tests whether the
            -- INT `i_nt` is an element of a set of (i_nt, mut_nt)
            -- PAIRS, so the membership is always False and the
            -- duplicate-mutation raise below can never fire
            else if (mcGet mc (((m.pos : Int) - 1).fdiv 3 + 1)).any
                (fun _ => false) then
              .error (.valueError ("duplicate mutations " ++
                toString (((m.pos : Int) - 1).emod 3) ++ " in " ++
                toString (((m.pos : Int) - 1).fdiv 3 + 1)))
            else .ok (mcAdd mc (((m.pos : Int) - 1).fdiv 3 + 1)
              ((((m.pos : Int) - 1).emod 3).toNat, m.mutant))

/-- The output-assembly loop of `_ntToCodonMuts` (lines 1987-1995):
`for r, r_muts in sorted(mut_codons.items())` build the mutant codon by
overwriting the wildtype codon at each recorded offset.  (Python
iterates `r_muts` in set-hash order; we iterate in insertion order —
the orders can differ only when one offset was hit twice, which the
dead duplicate check lets through; no settled claim depends on that
output.) -/
def ntAssemble (gene : List Char) (mc : List (Int × List (Nat × Char))) :
    List Mut :=
  (insertionSortBy (fun a b => decide (a.1 ≤ b.1)) mc).map (fun q =>
    let wt := codonAt gene q.1.toNat
    let mutc := q.2.foldl (fun acc p => acc.set p.1 p.2) wt
    ⟨wt, q.1.toNat, mutc⟩)

/-- `CodonVariantTable._ntToCodonMuts`: nucleotide mutation set to codon
mutation set. -/
def ntToCodonMuts (gene : List Char) (muts : List NtMut) :
    Except PyErr (List Mut) :=
  match muts.foldlM (ntStep gene) [] with
  | .error e => .error e
  | .ok mc => .ok (ntAssemble gene mc)

/-! ## `CodonVariantTable._codonToAAMuts` (codonvarianttable.py 1892-1935) -/

/-- One iteration of the `for mut in codon_mut_str.upper().split()` loop
of `_codonToAAMuts` (lines 1915-1933), in the code's check order; the
accumulator is the `aa_muts` dict as an insertion-ordered association
list (it only ever receives one entry per site: an entry is added only
after the `r in aa_muts` duplicate check passed). -/
def aaStep (codonToAA : List Char → Char) (gene : List Char)
    (acc : List (Nat × Mut)) (m : Mut) : Except PyErr (List (Nat × Mut)) :=
  -- regex `^([ATGC]{3})(\d+)([ATGC]{3})$`
  if ¬(m.wt.length = 3 ∧ m.mutant.length = 3 ∧
      m.wt.all isNt = true ∧ m.mutant.all isNt = true) then
    .error (.valueError ("invalid codon mutation " ++ m.str))
  else if acc.any (·.1 = m.site) then
    .error (.valueError ("duplicate codon mutation for " ++ toString m.site))
  -- `self.geneseq[3 * (r - 1) : 3 * r] != wt_codon` (Python slice)
  else if pySlice gene (3 * ((m.site : Int) - 1)) (3 * (m.site : Int)) ≠ m.wt then
    .error (.valueError ("invalid wildtype codon in " ++ m.str))
  else if m.wt = m.mutant then
    .error (.valueError ("invalid mutation " ++ m.str))
  else
    -- `assert wt_aa == self.aas[r]`
    match aasDictGet codonToAA gene (m.site : Int) with
    | .error e => .error e
    | .ok raa =>
      if codonToAA m.wt ≠ raa then .error .assertionError
      else if codonToAA m.wt ≠ codonToAA m.mutant then
        .ok (acc ++ [(m.site, ⟨[codonToAA m.wt], m.site, [codonToAA m.mutant]⟩)])
      else
        .ok acc

/-- `CodonVariantTable._codonToAAMuts`: codon mutation set to amino-acid
mutation set, `' '.join` of the `aa_muts` entries sorted by site. -/
def codonToAAMuts (codonToAA : List Char → Char) (gene : List Char)
    (muts : List Mut) : Except PyErr (List Mut) :=
  match muts.foldlM (aaStep codonToAA gene) [] with
  | .error e => .error e
  | .ok acc => .ok ((insertionSortBy (fun a b => decide (a.1 ≤ b.1)) acc).map (·.2))

theorem pyGet_natCast {α : Type} (l : List α) (k : Nat) (hk : k < l.length) :
    pyGet l (k : Int) = .ok (l.get ⟨k, hk⟩) := by
  have h0 : ¬((k : Int) < 0) := not_lt.mpr (Int.natCast_nonneg _)
  simp only [pyGet, if_neg h0]
  rw [dif_pos ⟨Int.natCast_nonneg _, by simpa using hk⟩]
  rfl

theorem ntStep_bad_error (gene : List Char)
    (mc : List (Int × List (Nat × Char))) (m : NtMut)
    (hbad : m.pos < 1 ∨ gene.length < m.pos ∨
      (1 ≤ m.pos ∧ m.pos ≤ gene.length ∧ gene.getD (m.pos - 1) ' ' ≠ m.wt)) :
    ∃ e, ntStep gene mc m = .error e := by
  unfold ntStep
  by_cases h1 : ¬(isNt m.wt = true ∧ isNt m.mutant = true)
  · exact ⟨_, by rw [if_pos h1]⟩
  · rw [if_neg h1]
    by_cases h2 : m.wt = m.mutant
    · exact ⟨_, by rw [if_pos h2]⟩
    · rw [if_neg h2]
      rcases hbad with hp | hp | ⟨hp1, hp2, hp3⟩
      · -- position below 1, i.e. 0: Python negative indexing then KeyError
        have hp0 : m.pos = 0 := by omega
        have hlen : ¬((gene.length : Int) < (m.pos : Int)) := by
          rw [hp0]; push_cast; omega
        rw [if_neg hlen]
        have hidx : ((m.pos : Int) - 1) = -1 := by rw [hp0]; norm_num
        rw [hidx]
        rcases href : pyGet gene (-1) with e | ref
        · exact ⟨e, rfl⟩
        · dsimp only
          by_cases h3 : ref ≠ m.wt
          · exact ⟨_, by rw [if_pos h3]⟩
          · rw [if_neg h3]
            have hic : ((-1 : Int).fdiv 3 + 1) = 0 := by decide
            rw [hic]
            have hkey : codonsDictGet gene 0 = .error (.keyError "0") := by
              unfold codonsDictGet
              rw [if_neg (by simp)]
              rfl
            rw [hkey]
            exact ⟨_, rfl⟩
      · -- position beyond the gene
        have hlen : (gene.length : Int) < (m.pos : Int) := by exact_mod_cast hp
        exact ⟨_, by rw [if_pos hlen]⟩
      · -- reference mismatch at a position inside the gene
        have hlen : ¬((gene.length : Int) < (m.pos : Int)) := by
          exact_mod_cast not_lt.mpr hp2
        rw [if_neg hlen]
        have hidx : ((m.pos : Int) - 1) = ((m.pos - 1 : Nat) : Int) := by
          push_cast [hp1]; omega
        rw [hidx]
        rw [pyGet_natCast gene (m.pos - 1) (by omega)]
        dsimp only
        have hrefeq : gene.get ⟨m.pos - 1, by omega⟩ = gene.getD (m.pos - 1) ' ' := by
          rw [List.getD_eq_getElem?_getD, List.getElem?_eq_getElem (by omega)]
          simp [List.get_eq_getElem]
        have h3 : gene.get ⟨m.pos - 1, by omega⟩ ≠ m.wt := by
          rw [hrefeq]; exact hp3
        exact ⟨_, by rw [if_pos h3]⟩

theorem intCast_fdiv3 (k : Nat) : ((k : Int)).fdiv 3 = ((k / 3 : Nat) : Int) := by
  cases k with
  | zero => simp [Int.fdiv, Nat.zero_div]
  | succ m => rfl

theorem intCast_emod3 (k : Nat) : ((k : Int)).emod 3 = ((k % 3 : Nat) : Int) := by
  rfl

theorem get_eq_getD (gene : List Char) (i : Nat) (h : i < gene.length) :
    gene.get ⟨i, h⟩ = gene.getD i ' ' := by
  rw [List.getD_eq_getElem?_getD, List.getElem?_eq_getElem h]
  simp [List.get_eq_getElem]

theorem codonAt_length (gene : List Char) (q : Nat)
    (h : 3 * q + 3 ≤ gene.length) : (codonAt gene (q + 1)).length = 3 := by
  unfold codonAt
  rw [List.length_take, List.length_drop]
  omega

theorem codonAt_getElem (gene : List Char) (q r : Nat) (hr : r < 3)
    (h : 3 * q + 3 ≤ gene.length)
    (h2 : r < (codonAt gene (q + 1)).length) :
    (codonAt gene (q + 1)).get ⟨r, h2⟩ = gene.getD (3 * q + r) ' ' := by
  have hin : 3 * q + r < gene.length := by omega
  have : (codonAt gene (q + 1)).get ⟨r, h2⟩ = gene.get ⟨3 * q + r, hin⟩ := by
    simp only [codonAt, Nat.add_sub_cancel, List.get_eq_getElem]
    rw [List.getElem_take, List.getElem_drop]
  rw [this, get_eq_getD]

theorem ntStep_error_valueError (gene : List Char) (hg3 : gene.length % 3 = 0)
    (mc : List (Int × List (Nat × Char))) (m : NtMut) (hpos : 1 ≤ m.pos)
    (e : PyErr) (he : ntStep gene mc m = .error e) :
    ∃ msg, e = .valueError msg := by
  unfold ntStep at he
  by_cases h1 : ¬(isNt m.wt = true ∧ isNt m.mutant = true)
  · rw [if_pos h1] at he; exact ⟨_, (Except.error.inj he).symm⟩
  · rw [if_neg h1] at he
    by_cases h2 : m.wt = m.mutant
    · rw [if_pos h2] at he; exact ⟨_, (Except.error.inj he).symm⟩
    · rw [if_neg h2] at he
      by_cases h3 : (gene.length : Int) < (m.pos : Int)
      · rw [if_pos h3] at he; exact ⟨_, (Except.error.inj he).symm⟩
      · rw [if_neg h3] at he
        have hple : m.pos ≤ gene.length := by exact_mod_cast not_lt.mp h3
        have hidx : ((m.pos : Int) - 1) = ((m.pos - 1 : Nat) : Int) := by omega
        rw [hidx] at he
        have hp1 : m.pos - 1 < gene.length := by omega
        rcases href : pyGet gene ((m.pos - 1 : Nat) : Int) with e0 | ref
        · rw [pyGet_natCast gene (m.pos - 1) hp1] at href
          exact (Except.noConfusion href)
        · rw [href] at he
          dsimp only at he
          have hrefval : ref = gene.getD (m.pos - 1) ' ' := by
            rw [pyGet_natCast gene (m.pos - 1) hp1] at href
            rw [← Except.ok.inj href, get_eq_getD]
          by_cases h4 : ref ≠ m.wt
          · rw [if_pos h4] at he; exact ⟨_, (Except.error.inj he).symm⟩
          · rw [if_neg h4] at he
            have hwt : m.wt = gene.getD (m.pos - 1) ' ' := by
              rw [← hrefval]; exact (not_ne_iff.mp h4).symm
            -- the codon-dict lookup succeeds for an in-range position
            have hic2 : ((((m.pos - 1 : Nat)) : Int)).fdiv 3 + 1 =
                (((m.pos - 1) / 3 + 1 : Nat) : Int) := by
              rw [intCast_fdiv3]; push_cast; ring
            rw [hic2, intCast_emod3] at he
            have hqb : 3 * ((m.pos - 1) / 3) + 3 ≤ gene.length := by omega
            have hcdg : codonsDictGet gene (((m.pos - 1) / 3 + 1 : Nat) : Int) =
                .ok (codonAt gene ((m.pos - 1) / 3 + 1)) := by
              unfold codonsDictGet
              rw [if_pos ⟨by exact_mod_cast Nat.le_add_left 1 _,
                by exact_mod_cast (by simp only [nSites]; omega :
                  (m.pos - 1) / 3 + 1 ≤ nSites gene)⟩]
              rfl
            rw [hcdg] at he
            dsimp only at he
            have hcl : (codonAt gene ((m.pos - 1) / 3 + 1)).length = 3 :=
              codonAt_length gene _ hqb
            have hrlt : (m.pos - 1) % 3 <
                (codonAt gene ((m.pos - 1) / 3 + 1)).length := by
              rw [hcl]; omega
            rw [pyGet_natCast _ ((m.pos - 1) % 3) hrlt] at he
            dsimp only at he
            have hcnt : (codonAt gene ((m.pos - 1) / 3 + 1)).get
                ⟨(m.pos - 1) % 3, hrlt⟩ = gene.getD (m.pos - 1) ' ' := by
              rw [codonAt_getElem gene ((m.pos - 1) / 3) ((m.pos - 1) % 3)
                (by omega) hqb hrlt]
              congr 1
              omega
            rw [if_neg (by rw [hcnt, ← hwt]; exact not_ne_iff.mpr rfl)] at he
            rw [if_neg (by simp)] at he
            exact (Except.noConfusion he)

theorem ntFold_bad_error (gene : List Char) (m : NtMut)
    (hbad : m.pos < 1 ∨ gene.length < m.pos ∨
      (1 ≤ m.pos ∧ m.pos ≤ gene.length ∧ gene.getD (m.pos - 1) ' ' ≠ m.wt)) :
    ∀ (muts : List NtMut), m ∈ muts →
      ∀ mc, ∃ e, muts.foldlM (ntStep gene) mc = .error e := by
  intro muts
  induction muts with
  | nil => intro hm; cases hm
  | cons a l ih =>
    intro hm mc
    rw [List.foldlM_cons]
    rcases ha : ntStep gene mc a with e0 | mc'
    · exact ⟨e0, rfl⟩
    · rcases List.mem_cons.mp hm with h | h
      · subst h
        rcases ntStep_bad_error gene mc m hbad with ⟨e1, he1⟩
        rw [he1] at ha
        exact (Except.noConfusion ha)
      · exact ih h mc'

theorem ntFold_error_valueError (gene : List Char) (hg3 : gene.length % 3 = 0) :
    ∀ (muts : List NtMut), (∀ m2 ∈ muts, 1 ≤ m2.pos) →
      ∀ mc e, muts.foldlM (ntStep gene) mc = .error e →
        ∃ msg, e = .valueError msg := by
  intro muts
  induction muts with
  | nil =>
    intro _ mc e he
    rw [List.foldlM_nil] at he
    exact (Except.noConfusion he)
  | cons a l ih =>
    intro hall mc e he
    rw [List.foldlM_cons] at he
    rcases ha : ntStep gene mc a with e0 | mc'
    · rw [ha] at he
      have he' : e0 = e := Except.error.inj he
      subst he'
      exact ntStep_error_valueError gene hg3 mc a
        (hall a (List.mem_cons_self a l)) e0 ha
    · rw [ha] at he
      exact ih (fun m2 hm2 => hall m2 (List.mem_cons_of_mem a hm2)) mc' e he

/-- C6 counterexample: the claim says a mutation whose 1-based position
is below 1 fails with the InvalidMutation error.  For the gene
`"ATGGGATGA"` the position-0 mutation `"A0G"` has a stated wildtype
equal to the gene's LAST nucleotide (Python's `geneseq[i - 1]` with
`i = 0` reads `geneseq[-1]`), so all ValueError checks pass and the code
instead dies with `KeyError(0)` on `self.codons[0]` — a failure, but not
the InvalidMutation `ValueError`. -/
theorem c6_counterexample :
    ntToCodonMuts "ATGGGATGA".toList [⟨'A', 0, 'G'⟩] = .error (.keyError "0") ∧
    (∀ msg, ntToCodonMuts "ATGGGATGA".toList [⟨'A', 0, 'G'⟩] ≠
      .error (.valueError msg)) ∧
    (⟨'A', 0, 'G'⟩ : NtMut).pos < 1 := by
  refine ⟨rfl, ?_, by decide⟩
  intro msg h
  rw [show ntToCodonMuts "ATGGGATGA".toList [⟨'A', 0, 'G'⟩] =
    .error (.keyError "0") from rfl] at h
  exact PyErr.noConfusion (Except.error.inj h)

/-- C6 (amended): for every nucleotide mutation in the input set whose
position is out of range (below 1 — expressible only as 0 — or greater
than the gene length) or whose stated wildtype differs from the
reference nucleotide at that position, translation fails; and when no
mutation of the set has position 0, the failure is with the
InvalidMutation error (`ValueError`).  (A position-0 mutation is
checked against the LAST nucleotide by Python negative indexing and can
abort with an internal `KeyError` instead.) -/
theorem c6_amended_thm (gene : List Char) (muts : List NtMut) (m : NtMut)
    (hg3 : gene.length % 3 = 0) (hm : m ∈ muts)
    (hbad : m.pos < 1 ∨ gene.length < m.pos ∨
      (1 ≤ m.pos ∧ m.pos ≤ gene.length ∧ gene.getD (m.pos - 1) ' ' ≠ m.wt)) :
    (∃ e, ntToCodonMuts gene muts = .error e) ∧
    ((∀ m2 ∈ muts, 1 ≤ m2.pos) →
      ∃ msg, ntToCodonMuts gene muts = .error (.valueError msg)) := by
  rcases ntFold_bad_error gene m hbad muts hm [] with ⟨e, hefold⟩
  constructor
  · exact ⟨e, by unfold ntToCodonMuts; rw [hefold]⟩
  · intro hall
    rcases ntFold_error_valueError gene hg3 muts hall [] e hefold with ⟨msg, hmsg⟩
    refine ⟨msg, ?_⟩
    unfold ntToCodonMuts
    rw [hefold, hmsg]

/-- C6 witness: for gene `"ATGGGATGA"` the mutation `"G6T"` states
wildtype `G` but the reference nucleotide at position 6 is `A`, and all
positions are at least 1, so translation fails with a `ValueError`. -/
theorem c6_witness :
    ("ATGGGATGA".toList.length % 3 = 0 ∧
      (⟨'G', 6, 'T'⟩ : NtMut) ∈ [(⟨'G', 6, 'T'⟩ : NtMut)] ∧
      (1 ≤ (6 : Nat) ∧ 6 ≤ "ATGGGATGA".toList.length ∧
        "ATGGGATGA".toList.getD (6 - 1) ' ' ≠ 'G')) ∧
    ((∀ m2 ∈ [(⟨'G', 6, 'T'⟩ : NtMut)], 1 ≤ m2.pos) →
      ∃ msg, ntToCodonMuts "ATGGGATGA".toList [⟨'G', 6, 'T'⟩] =
        .error (.valueError msg)) :=
  ⟨⟨by decide, by decide, by decide, by decide, by decide⟩,
    (c6_amended_thm "ATGGGATGA".toList [⟨'G', 6, 'T'⟩] ⟨'G', 6, 'T'⟩
      (by decide) (by decide)
      (Or.inr (Or.inr ⟨by decide, by decide, by decide⟩))).2⟩

theorem insertLe_map_pullback {α β : Type} (u : α → β) (le : β → β → Bool)
    (a : α) (l : List α) :
    insertLe le (u a) (l.map u) = (insertLe (fun x y => le (u x) (u y)) a l).map u := by
  induction l with
  | nil => rfl
  | cons b l ih =>
    simp only [List.map_cons, insertLe]
    by_cases h : le (u b) (u a)
    · rw [if_pos h, if_pos h, List.map_cons, ih]
    · rw [if_neg h, if_neg h, List.map_cons, List.map_cons]

theorem insertionSortBy_map_pullback {α β : Type} (u : α → β)
    (le : β → β → Bool) (l : List α) :
    insertionSortBy le (l.map u) =
      (insertionSortBy (fun x y => le (u x) (u y)) l).map u := by
  induction l with
  | nil => rfl
  | cons a l ih =>
    simp only [List.map_cons, insertionSortBy]
    rw [ih, insertLe_map_pullback]

theorem pySlice_codonAt (gene : List Char) (r : Nat) (hr1 : 1 ≤ r)
    (hr2 : r ≤ nSites gene) (hg3 : gene.length % 3 = 0) :
    pySlice gene (3 * ((r : Int) - 1)) (3 * (r : Int)) = codonAt gene r := by
  have hn : 3 * (nSites gene) ≤ gene.length := by simp only [nSites]; omega
  have hlen : 3 * r ≤ gene.length := by omega
  have h1 : ¬(3 * ((r : Int) - 1) < 0) := by omega
  have h2 : ¬((3 * (r : Int)) < 0) := by omega
  simp only [pySlice, if_neg h1, if_neg h2]
  have hm1 : min (3 * ((r : Int) - 1)) ((gene.length : Nat) : Int) =
      3 * ((r : Int) - 1) := min_eq_left (by omega)
  have hm2 : min (3 * (r : Int)) ((gene.length : Nat) : Int) = 3 * (r : Int) :=
    min_eq_left (by omega)
  rw [hm1, hm2]
  have ht1 : (3 * ((r : Int) - 1)).toNat = 3 * (r - 1) := by omega
  have ht2 : (3 * (r : Int) - 3 * ((r : Int) - 1)).toNat = 3 := by omega
  rw [ht1, ht2]
  rfl

/-- Validity of one codon mutation against the reference gene (the
spec's notion of a valid codon mutation set member). -/
def codonMutOk (gene : List Char) (m : Mut) : Prop :=
  m.site ∈ sitesOf gene ∧ m.wt = codonAt gene m.site ∧ m.wt ≠ m.mutant ∧
  m.mutant.length = 3 ∧ m.mutant.all isNt = true

instance (gene : List Char) (m : Mut) : Decidable (codonMutOk gene m) := by
  unfold codonMutOk; infer_instance

theorem site_bounds_of_mem_sitesOf (gene : List Char) (r : Nat)
    (h : r ∈ sitesOf gene) : 1 ≤ r ∧ r ≤ nSites gene := by
  simp only [sitesOf, List.mem_range'_1] at h
  omega

theorem codonAt_length_of_site (gene : List Char) (r : Nat)
    (hg3 : gene.length % 3 = 0) (hr1 : 1 ≤ r) (hr2 : r ≤ nSites gene) :
    (codonAt gene r).length = 3 := by
  have hn : 3 * (nSites gene) ≤ gene.length := by simp only [nSites]; omega
  unfold codonAt
  rw [List.length_take, List.length_drop]
  omega

theorem codonAt_all_isNt (gene : List Char) (r : Nat)
    (hgnt : gene.all isNt = true) : (codonAt gene r).all isNt = true := by
  rw [List.all_eq_true] at hgnt ⊢
  intro c hc
  exact hgnt c (List.drop_subset _ gene (List.take_subset _ _ hc))

theorem aaFold_ok (codonToAA : List Char → Char) (gene : List Char)
    (hg3 : gene.length % 3 = 0) (hgnt : gene.all isNt = true) :
    ∀ (muts : List Mut) (acc : List (Nat × Mut)),
      (∀ m ∈ muts, codonMutOk gene m) →
      (muts.map (·.site)).Nodup →
      (∀ p ∈ acc, p.1 ∉ muts.map (·.site)) →
      muts.foldlM (aaStep codonToAA gene) acc =
        .ok (acc ++
          (muts.filter (fun m => decide (codonToAA m.wt ≠ codonToAA m.mutant))).map
            (fun m => (m.site, ⟨[codonToAA m.wt], m.site, [codonToAA m.mutant]⟩))) := by
  intro muts
  induction muts with
  | nil =>
    intro acc _ _ _
    simp only [List.foldlM_nil, List.filter_nil, List.map_nil, List.append_nil]
    rfl
  | cons a l ih =>
    intro acc hv hnd hacc
    have hva := hv a (List.mem_cons_self a l)
    rcases hva with ⟨hsite, hwt, hne, hmlen, hmnt⟩
    rcases site_bounds_of_mem_sitesOf gene a.site hsite with ⟨hr1, hr2⟩
    have hwtlen : a.wt.length = 3 := by
      rw [hwt]; exact codonAt_length_of_site gene a.site hg3 hr1 hr2
    have hwtnt : a.wt.all isNt = true := by
      rw [hwt]; exact codonAt_all_isNt gene a.site hgnt
    have hstep : aaStep codonToAA gene acc a =
        .ok (if codonToAA a.wt ≠ codonToAA a.mutant then
          acc ++ [(a.site, ⟨[codonToAA a.wt], a.site, [codonToAA a.mutant]⟩)]
          else acc) := by
      unfold aaStep
      rw [if_neg (not_not_intro ⟨hwtlen, hmlen, hwtnt, hmnt⟩)]
      rw [if_neg (by
        simp only [List.any_eq_true, not_exists, not_and, decide_eq_true_eq]
        intro p hp
        exact fun hps => (hacc p hp) (by
          rw [List.map_cons]
          exact hps ▸ List.mem_cons_self a.site _))]
      rw [if_neg (by
        rw [pySlice_codonAt gene a.site hr1 hr2 hg3, ← hwt]
        exact not_ne_iff.mpr rfl)]
      rw [if_neg hne]
      have hdg : aasDictGet codonToAA gene (a.site : Int) =
          .ok (codonToAA (codonAt gene a.site)) := by
        unfold aasDictGet
        rw [if_pos ⟨by exact_mod_cast hr1, by exact_mod_cast hr2⟩]
        rfl
      rw [hdg]
      dsimp only
      rw [if_neg (by rw [← hwt]; exact not_ne_iff.mpr rfl)]
      by_cases hp : codonToAA a.wt ≠ codonToAA a.mutant
      · rw [if_pos hp, if_pos hp]
      · rw [if_neg hp, if_neg hp]
    rw [List.foldlM_cons, hstep]
    have hnd' : (l.map (·.site)).Nodup := (List.nodup_cons.mp (by
      rw [List.map_cons] at hnd; exact hnd)).2
    have hanotl : a.site ∉ l.map (·.site) := (List.nodup_cons.mp (by
      rw [List.map_cons] at hnd; exact hnd)).1
    by_cases hp : codonToAA a.wt ≠ codonToAA a.mutant
    · rw [if_pos hp]
      have := ih (acc ++ [(a.site, ⟨[codonToAA a.wt], a.site, [codonToAA a.mutant]⟩)])
        (fun m hm => hv m (List.mem_cons_of_mem a hm)) hnd'
        (by
          intro p hp'
          rcases List.mem_append.mp hp' with h | h
          · exact fun hc => (hacc p h) (by
              rw [List.map_cons]; exact List.mem_cons_of_mem _ hc)
          · rcases List.mem_singleton.mp h with rfl
            exact hanotl)
      rw [show (Except.ok (acc ++ [(a.site,
          (⟨[codonToAA a.wt], a.site, [codonToAA a.mutant]⟩ : Mut))]) >>=
          fun b => List.foldlM (aaStep codonToAA gene) b l) =
          List.foldlM (aaStep codonToAA gene)
            (acc ++ [(a.site, ⟨[codonToAA a.wt], a.site, [codonToAA a.mutant]⟩)]) l
          from rfl]
      rw [this]
      rw [List.filter_cons_of_pos (by simpa using hp), List.map_cons]
      simp
    · rw [if_neg hp]
      have := ih acc (fun m hm => hv m (List.mem_cons_of_mem a hm)) hnd'
        (fun p hp' hc => (hacc p hp') (by
          rw [List.map_cons]; exact List.mem_cons_of_mem _ hc))
      rw [show (Except.ok acc >>= fun b => List.foldlM (aaStep codonToAA gene) b l) =
          List.foldlM (aaStep codonToAA gene) acc l from rfl]
      rw [this]
      rw [List.filter_cons_of_neg (by simpa using hp)]

/-- C7: for every valid codon mutation set (each mutation at a distinct
valid site, wildtype equal to the reference codon, wildtype different
from mutant), codon-to-amino-acid translation succeeds and outputs
exactly the mutations at sites where the genetic-code translations of
wildtype and mutant codon differ (synonymous changes dropped, so the
output length — `n_aa_substitutions` — is at most the input length,
`n_codon_substitutions`), sorted by site ascending. -/
theorem c7_thm (codonToAA : List Char → Char) (gene : List Char)
    (muts : List Mut) (hg3 : gene.length % 3 = 0) (hgnt : gene.all isNt = true)
    (hv : ∀ m ∈ muts, codonMutOk gene m)
    (hnd : (muts.map (·.site)).Nodup) :
    codonToAAMuts codonToAA gene muts =
      .ok (insertionSortBy (fun a b => decide (a.site ≤ b.site))
        ((muts.filter (fun m => decide (codonToAA m.wt ≠ codonToAA m.mutant))).map
          (fun m => ⟨[codonToAA m.wt], m.site, [codonToAA m.mutant]⟩))) ∧
    (insertionSortBy (fun a b : Mut => decide (a.site ≤ b.site))
        ((muts.filter (fun m => decide (codonToAA m.wt ≠ codonToAA m.mutant))).map
          (fun m : Mut => ⟨[codonToAA m.wt], m.site, [codonToAA m.mutant]⟩))).Perm
      ((muts.filter (fun m => decide (codonToAA m.wt ≠ codonToAA m.mutant))).map
          (fun m : Mut => ⟨[codonToAA m.wt], m.site, [codonToAA m.mutant]⟩)) ∧
    (insertionSortBy (fun a b : Mut => decide (a.site ≤ b.site))
        ((muts.filter (fun m => decide (codonToAA m.wt ≠ codonToAA m.mutant))).map
          (fun m : Mut => ⟨[codonToAA m.wt], m.site, [codonToAA m.mutant]⟩))).Pairwise
      (fun a b => a.site ≤ b.site) ∧
    (insertionSortBy (fun a b : Mut => decide (a.site ≤ b.site))
        ((muts.filter (fun m => decide (codonToAA m.wt ≠ codonToAA m.mutant))).map
          (fun m : Mut => ⟨[codonToAA m.wt], m.site, [codonToAA m.mutant]⟩))).length ≤
      muts.length := by
  refine ⟨?_, insertionSortBy_perm _ _, ?_, ?_⟩
  · unfold codonToAAMuts
    rw [aaFold_ok codonToAA gene hg3 hgnt muts [] hv hnd
      (by intro p hp; cases hp)]
    dsimp only
    rw [List.nil_append]
    rw [insertionSortBy_map_pullback
      (fun m : Mut => (m.site,
        (⟨[codonToAA m.wt], m.site, [codonToAA m.mutant]⟩ : Mut)))
      (fun a b => decide (a.1 ≤ b.1))
      (muts.filter (fun m => decide (codonToAA m.wt ≠ codonToAA m.mutant)))]
    rw [List.map_map]
    rw [insertionSortBy_map_pullback
      (fun m : Mut => (⟨[codonToAA m.wt], m.site, [codonToAA m.mutant]⟩ : Mut))
      (fun a b => decide (a.site ≤ b.site))
      (muts.filter (fun m => decide (codonToAA m.wt ≠ codonToAA m.mutant)))]
    rfl
  · have hp := insertionSortBy_pairwise
      (fun (a b : Mut) => decide (a.site ≤ b.site))
      (fun a b => by
        rcases le_total a.site b.site with h | h
        · exact Or.inl (decide_eq_true h)
        · exact Or.inr (decide_eq_true h))
      (fun a b c hab hbc => decide_eq_true
        (le_trans (of_decide_eq_true hab) (of_decide_eq_true hbc)))
      ((muts.filter (fun m => decide (codonToAA m.wt ≠ codonToAA m.mutant))).map
          (fun m => ⟨[codonToAA m.wt], m.site, [codonToAA m.mutant]⟩))
    exact hp.imp (fun h => of_decide_eq_true h)
  · rw [(insertionSortBy_perm _ _).length_eq, List.length_map]
    exact List.length_filter_le _ _

/-- Concrete gene of the spec's worked example (M-G-stop). -/
def c7gene : List Char := "ATGGGATGA".toList

/-- A concrete genetic-code fragment covering the codons of the worked
example (the claim theorem holds for every code table, so the witness
may instantiate any). -/
def c7aa : List Char → Char := fun c =>
  if c = "ATG".toList then 'M' else if c = "GGA".toList then 'G'
  else if c = "CGC".toList then 'R' else if c = "TGA".toList then '*' else 'X'

/-- The codon mutation `GGA2CGC` of the spec's worked example. -/
def c7muts : List Mut := [⟨"GGA".toList, 2, "CGC".toList⟩]

/-- C7 witness: the worked example `GGA2CGC` on gene `ATGGGATGA`
discharges every hypothesis of `c7_thm` and yields its conclusion. -/
theorem c7_witness :
    (c7gene.length % 3 = 0 ∧ c7gene.all isNt = true ∧
      (∀ m ∈ c7muts, codonMutOk c7gene m) ∧ (c7muts.map (·.site)).Nodup) ∧
    codonToAAMuts c7aa c7gene c7muts =
      .ok (insertionSortBy (fun a b => decide (a.site ≤ b.site))
        ((c7muts.filter (fun m => decide (c7aa m.wt ≠ c7aa m.mutant))).map
          (fun m => ⟨[c7aa m.wt], m.site, [c7aa m.mutant]⟩))) :=
  ⟨⟨by decide, by decide, by decide, by decide⟩,
    (c7_thm c7aa c7gene c7muts (by decide) (by decide) (by decide)
      (by decide)).1⟩

/-! ## codonvarianttable.py: the CodonVariantTable

DataFrames are lists of structured rows in row order; `Categorical`
columns are modelled by carrying the ordered category list into the sort
comparators (the categorical dtype itself is column metadata).  The
genetic-code constants `CODONS`, `CODON_TO_AA`, `AAS_WITHSTOP` are
imported by the module from the package root, which is not part of the
sources; the model takes them as a `GeneticCode` parameter. -/

/-- The genetic-code data the module imports from the package root:
the codon to amino-acid table, the ordered list of the codons, and the
amino-acid alphabet (stop included). -/
structure GeneticCode where
  codonToAA : List Char → Char
  CODONS : List (List Char)
  AAS_WITHSTOP : List Char

/-- Python string comparison (code-point lexicographic), strict part. -/
def charListLtB : List Char → List Char → Bool
  | [], [] => false
  | [], _ :: _ => true
  | _ :: _, [] => false
  | a :: as, b :: bs =>
      if a.val < b.val then true
      else if b.val < a.val then false
      else charListLtB as bs

/-- Python string `<=`. -/
def strLeB (a b : String) : Bool :=
  a == b || charListLtB a.toList b.toList

/-- A row of `barcode_variant_df`: the input columns plus the derived
codon/amino-acid substitution columns (codonvarianttable.py 772-805). -/
structure BCVariant where
  library : String
  barcode : String
  variant_call_support : Nat
  codon_substitutions : List Mut
  aa_substitutions : List Mut
  n_codon_substitutions : Nat
  n_aa_substitutions : Nat
deriving DecidableEq, Repr

/-- A row of `variant_count_df` (and of the frames `_getPlotData`
returns): the barcode-count columns joined with the variant columns. -/
structure CountRow where
  barcode : String
  count : Nat
  library : String
  sample : String
  variant_call_support : Nat
  codon_substitutions : List Mut
  aa_substitutions : List Mut
  n_codon_substitutions : Nat
  n_aa_substitutions : Nat
deriving DecidableEq, Repr

/-- The state of a `CodonVariantTable`.  The derived `sites`, `codons`
and `aas` attributes are deterministic functions of `geneseq`
(`sitesOf`, `codonAt`, the genetic code applied to `codonAt`) and are
not duplicated in the state. -/
structure CVTable where
  geneseq : List Char
  libraries : List String
  /-- `_valid_barcodes`: per library the set of its barcodes (Python
  sets; compared set-wise). -/
  valid_barcodes : List (String × List String)
  /-- `_samples`: per library the samples added, in insertion order. -/
  samples : List (String × List String)
  barcode_variant_df : List BCVariant
  variant_count_df : Option (List CountRow)
deriving DecidableEq, Repr

/-- Lookup in a dict-of-lists keyed by library (empty for a missing
key, which the callers exclude by validating the library first). -/
def dictLookup (L : List (String × List String)) (lib : String) : List String :=
  ((L.find? (·.1 = lib)).map (·.2)).getD []

/-- `CodonVariantTable.samples(library)` (without the unknown-library
raise, which callers below perform first). -/
def samplesOf (T : CVTable) (lib : String) : List String :=
  dictLookup T.samples lib

/-- `CodonVariantTable.valid_barcodes(library)` (membership validated by
the callers below before use). -/
def validBarcodesOf (T : CVTable) (lib : String) : List String :=
  dictLookup T.valid_barcodes lib

/-- The set of samples of any library,
`set(itertools.chain.from_iterable(self.samples(lib) ...))`. -/
def allSamplesOf (T : CVTable) : List String :=
  T.libraries.flatMap (samplesOf T)

/-- The `unique_samples` ordering of `addSampleCounts` (lines
1018-1021): first-seen order over the libraries in library order. -/
def uniqueSamples (T : CVTable) : List String :=
  dedupFirst (T.libraries.flatMap (samplesOf T))

/-- The join of one barcode-count row with its matching
`barcode_variant_df` row (the column assignment of lines 996-1004). -/
def mkCountRow (lib samp bc : String) (cnt : Nat) (r : BCVariant) : CountRow :=
  { barcode := bc, count := cnt, library := lib, sample := samp,
    variant_call_support := r.variant_call_support,
    codon_substitutions := r.codon_substitutions,
    aa_substitutions := r.aa_substitutions,
    n_codon_substitutions := r.n_codon_substitutions,
    n_aa_substitutions := r.n_aa_substitutions }

/-- The `sort_values(['library', 'sample', 'count'],
ascending=[True, True, False])` key of `addSampleCounts`, with `library`
and `sample` ranked by their ordered categories. -/
def countRowLe (libs usamps : List String) (a b : CountRow) : Bool :=
  if idxOf libs a.library < idxOf libs b.library then true
  else if idxOf libs b.library < idxOf libs a.library then false
  else if idxOf usamps a.sample < idxOf usamps b.sample then true
  else if idxOf usamps b.sample < idxOf usamps a.sample then false
  else decide (b.count ≤ a.count)

/-- `CodonVariantTable.addSampleCounts(library, sample, barcodecounts)`
(codonvarianttable.py 961-1042).  The method mutates `self`; the model
returns the state as of return or raise time together with the raised
exception, so that what a failed call left behind is visible.  The
`req_cols` presence check is enforced by the input type
`List (String × Nat)` (barcode, count). -/
def addSampleCounts (T : CVTable) (library sample : String)
    (barcodecounts : List (String × Nat)) : CVTable × Option PyErr :=
  if library ∉ T.libraries then
    (T, some (.valueError ("invalid library " ++ library)))
  else if sample ∈ samplesOf T library then
    (T, some (.valueError ("`library` " ++ library ++ " already has `sample` "
      ++ sample)))
  else if barcodecounts.length ≠ (dedupFirst (barcodecounts.map (·.1))).length then
    (T, some (.valueError "`barcodecounts` has non-unique barcodes"))
  else if ¬ (setEqB (dedupFirst (barcodecounts.map (·.1)))
      (validBarcodesOf T library) = true) then
    (T, some (.valueError ("barcodes in `barcodecounts` do not match those "
      ++ "expected for `library` " ++ library)))
  else
    -- `self._samples[library].append(sample)` (line 994) happens BEFORE
    -- the merge
    let T1 : CVTable := { T with samples := T.samples.map (fun p =>
        if p.1 = library then (p.1, p.2 ++ [sample]) else p) }
    -- `validate='one_to_one'` raises MergeError on duplicate join keys;
    -- the left side's keys are unique by the checks above
    if ¬ ((T.barcode_variant_df.map (fun r => (r.library, r.barcode))).Nodup) then
      (T1, some .mergeError)
    else
      -- inner merge on (library, barcode), left row order preserved
      let df := barcodecounts.filterMap (fun bc =>
        (T.barcode_variant_df.find? (fun r =>
          decide (r.library = library) && decide (r.barcode = bc.1))).map
          (mkCountRow library sample bc.1 bc.2))
      let vc0 := (T.variant_count_df.getD []) ++ df
      let vc := insertionSortBy (countRowLe T.libraries (uniqueSamples T1)) vc0
      ({ T1 with variant_count_df := some vc }, Option.none)

/-- `CodonVariantTable.addMergedLibraries(df, all_lib)`
(codonvarianttable.py 1762-1808).  The final `Categorical` re-assignment
only sets column metadata (the ordered categories `libs + [all_lib]`)
and is carried by the callers' sort comparators. -/
def addMergedLibraries (all_lib : String) (df : List CountRow) :
    Except PyErr (List CountRow) :=
  let libs := dedupFirst (df.map (·.library))
  if libs.length ≤ 1 then .ok df
  else if all_lib ∈ libs then
    .error (.valueError ("library " ++ all_lib ++ " already exists"))
  else
    .ok (df ++ df.map (fun r =>
      { r with barcode := r.library ++ "-" ++ r.barcode, library := all_lib }))

/-- The `samples` argument of the reporting methods: `None`, `'all'`, or
a list of sample names. -/
inductive SamplesArg where
  | none
  | all
  | list (ls : List String)
deriving DecidableEq, Repr

/-- The `libraries` argument: `'all'`, `'all_only'`, or a list of
library names. -/
inductive LibrariesArg where
  | all
  | all_only
  | list (ls : List String)
deriving DecidableEq, Repr

/-- The row `_getPlotData` derives from a `barcode_variant_df` row when
`samples=None`: `assign(sample='barcoded variants').assign(count=1)`. -/
def BCVariant.toCountRow (r : BCVariant) (sample : String) (count : Nat) :
    CountRow :=
  { barcode := r.barcode, count := count, library := r.library,
    sample := sample, variant_call_support := r.variant_call_support,
    codon_substitutions := r.codon_substitutions,
    aa_substitutions := r.aa_substitutions,
    n_codon_substitutions := r.n_codon_substitutions,
    n_aa_substitutions := r.n_aa_substitutions }

/-- The `samples` branch of `_getPlotData` (codonvarianttable.py
1827-1853).  In the list branch the code runs `df = (df.query(...))`
with the local `df` not yet assigned, so any list-valued `samples` that
passes the two validation raises aborts with `UnboundLocalError`. -/
def samplesBranch (T : CVTable) (samples : SamplesArg) :
    Except PyErr (List CountRow) :=
  match samples with
  | .none => .ok (T.barcode_variant_df.map (fun r =>
      r.toCountRow "barcoded variants" 1))
  | .all =>
    match T.variant_count_df with
    | Option.none => .error (.valueError "no samples have been added")
    | some vdf => .ok vdf
  | .list ls =>
    if ¬ (∀ s ∈ ls, s ∈ allSamplesOf T) then
      .error (.valueError "invalid sample(s)")
    else if ls.length ≠ (dedupFirst ls).length then
      .error (.valueError "duplicate samples")
    else
      .error (.unboundLocal "df")

/-- The `libraries` branch of `_getPlotData` (lines 1862-1883). -/
def librariesBranch (T : CVTable) (libraries : LibrariesArg)
    (df : List CountRow) : Except PyErr (List CountRow) :=
  match libraries with
  | .all => addMergedLibraries "all libraries" df
  | .all_only =>
    (addMergedLibraries "all libraries" df).map (fun d =>
      d.filter (fun r => decide (r.library = "all libraries")))
  | .list ls =>
    if ¬ (∀ lib ∈ ls, lib ∈ T.libraries) then
      .error (.valueError "invalid library")
    else if ls.length ≠ (dedupFirst ls).length then
      .error (.valueError "duplicate library")
    else
      .ok (df.filter (fun r => decide (r.library ∈ ls)))

/-- `CodonVariantTable._getPlotData(libraries, samples, min_support)`
(codonvarianttable.py 1811-1889). -/
def getPlotData (T : CVTable) (libraries : LibrariesArg)
    (samples : SamplesArg) (min_support : Nat) :
    Except PyErr (List CountRow) :=
  match samplesBranch T samples with
  | .error e => .error e
  | .ok df0 =>
    let df1 := df0.filter (fun r => decide (min_support ≤ r.variant_call_support))
    if df1.length = 0 then .error (.valueError "no samples")
    else
      match librariesBranch T libraries df1 with
      | .error e => .error e
      | .ok df2 =>
        if df2.length = 0 then .error (.valueError "no libraries")
        else .ok df2

/-- A row of the `mutCounts` result frame: columns `library`, `sample`,
`mutation`, `count`, `mutation_type`, `site`. -/
structure MutCountRow where
  library : String
  sample : String
  mutation : Mut
  count : Nat
  mutation_type : String
  site : Nat
deriving DecidableEq, Repr

/-- The mutation column at the requested granularity of a data-frame
row (`mut_type` is validated as `"codon"` or `"aa"` by the caller). -/
def CountRow.gmuts (mut_type : String) (r : CountRow) : List Mut :=
  if mut_type = "codon" then r.codon_substitutions else r.aa_substitutions

/-- The substitution-count column at the requested granularity. -/
def CountRow.nsubs (mut_type : String) (r : CountRow) : Nat :=
  if mut_type = "codon" then r.n_codon_substitutions else r.n_aa_substitutions

/-- `_classify_mutation` of `mutCounts` (lines 1132-1148): at the codon
level translate both codons, at the amino-acid level compare the
symbols directly. -/
def classifyMutation (codonToAA : List Char → Char) (mut_type : String)
    (m : Mut) : String :=
  let wtA := if mut_type = "aa" then m.wt.headD 'X' else codonToAA m.wt
  let mutA := if mut_type = "aa" then m.mutant.headD 'X' else codonToAA m.mutant
  if wtA = mutA then "synonymous"
  else if mutA = '*' then "stop"
  else "nonsynonymous"

/-- The key of one `mutCounts` accumulation row:
(library, sample, mutation). -/
def mkKey (x : String × String × Mut × Nat) : String × String × Mut :=
  (x.1, x.2.1, x.2.2.1)

/-- The final `sort_values(['library', 'sample', 'count', 'mutation'],
ascending=[True, True, False, True])` key of `mutCounts`, with `library`
and `sample` ranked by their categories and `mutation` compared as its
serialized token. -/
def mutRowLe (librarylist samplelist : List String) (a b : MutCountRow) : Bool :=
  if idxOf librarylist a.library < idxOf librarylist b.library then true
  else if idxOf librarylist b.library < idxOf librarylist a.library then false
  else if idxOf samplelist a.sample < idxOf samplelist b.sample then true
  else if idxOf samplelist b.sample < idxOf samplelist a.sample then false
  else if b.count < a.count then true
  else if a.count < b.count then false
  else strLeB a.mutation.str b.mutation.str

/-- The `chars` alphabet of `mutCounts` for a granularity: the codons,
or the amino acids with stop (as singleton symbol lists). -/
def mcChars (gc : GeneticCode) (mt : String) : List (List Char) :=
  if mt = "codon" then gc.CODONS else gc.AAS_WITHSTOP.map (fun a => [a])

/-- The `wts` mapping of `mutCounts` for a granularity: per site the
wildtype codon, or the wildtype amino acid. -/
def mcWtsAt (gc : GeneticCode) (gene : List Char) (mt : String) (r : Nat) :
    List Char :=
  if mt = "codon" then codonAt gene r else [gc.codonToAA (codonAt gene r)]

/-- The `mut_list` enumeration of `mutCounts` (lines 1112-1116): for
every site, every alphabet symbol other than the wildtype. -/
def mcMutList (gc : GeneticCode) (gene : List Char) (mt : String) : List Mut :=
  (sitesOf gene).flatMap (fun r =>
    ((mcChars gc mt).filter (· ≠ mcWtsAt gc gene mt r)).map
      (fun mc => ⟨mcWtsAt gc gene mt r, r, mc⟩))

/-- The `all_muts` zero-count frame (lines 1117-1123): one block of
`mut_list` rows per `itertools.product(librarylist, samplelist)` pair. -/
def allMutsRows (librarylist samplelist : List String) (mut_list : List Mut) :
    List (String × String × Mut × Nat) :=
  (librarylist.flatMap (fun lib =>
    samplelist.map (fun samp => (lib, samp)))).flatMap
    (fun p => mut_list.map (fun m => (p.1, p.2, m, 0)))

/-- The `variant_type` filter (lines 1125-1130; validity of the
argument is checked by the caller). -/
def vtFilter (vt mt : String) (df : List CountRow) : List CountRow :=
  df.filter (fun r =>
    if vt = "single" then decide (r.nsubs mt = 1)
    else decide (1 ≤ r.nsubs mt))

/-- `tidy_split` on the renamed mutation column (line 1164): one row
per mutation of each variant row. -/
def splitRows (mt : String) (dfF : List CountRow) :
    List (String × String × Mut × Nat) :=
  dfF.flatMap (fun r => (r.gmuts mt).map (fun m =>
    (r.library, r.sample, m, r.count)))

/-- Sum of the `count` column. -/
def sumCounts (l : List (String × String × Mut × Nat)) : Nat :=
  l.foldl (fun s x => s + x.2.2.2) 0

/-- The `groupby(['library','sample','mutation']).aggregate
({'count':'sum'})` of `mutCounts`: one entry per distinct key with the
summed count. -/
def groupedRows (combined : List (String × String × Mut × Nat)) :
    List ((String × String × Mut) × Nat) :=
  (dedupFirst (combined.map mkKey)).map (fun k =>
    (k, sumCounts (combined.filter (fun x => decide (mkKey x = k)))))

/-- `CodonVariantTable.mutCounts(variant_type, mut_type, libraries,
samples, min_support)` (codonvarianttable.py 1077-1193).  The outer
merge of the split per-variant mutation rows with the zero-count
enumeration `all_muts` joins on all four common columns, so it is a
union of the two row lists that collapses only exactly-equal rows —
which both carry count 0 — and the subsequent
`groupby(['library','sample','mutation']).aggregate({'count':'sum'})`
therefore sums the per-variant counts (plus zeros) per key; the model
groups the concatenation directly.  (`groupby` emits keys sorted; the
final `sort_values` makes that order immaterial because its four sort
keys are distinct for distinct rows.) -/
def mutCounts (gc : GeneticCode) (T : CVTable)
    (variant_type mut_type : String) (libraries : LibrariesArg)
    (samples : SamplesArg) (min_support : Nat) :
    Except PyErr (List MutCountRow) :=
  match getPlotData T libraries samples min_support with
  | .error e => .error e
  | .ok df =>
    let samplelist := dedupFirst (df.map (·.sample))
    let librarylist := dedupFirst (df.map (·.library))
    if mut_type ≠ "codon" ∧ mut_type ≠ "aa" then
      .error (.valueError ("invalid mut_type " ++ mut_type))
    else
      let all_muts := allMutsRows librarylist samplelist
        (mcMutList gc T.geneseq mut_type)
      if variant_type ≠ "single" ∧ variant_type ≠ "all" then
        .error (.valueError ("invalid variant_type " ++ variant_type))
      else
        let combined := splitRows mut_type (vtFilter variant_type mut_type df)
          ++ all_muts
        match (groupedRows combined).mapM (fun kc =>
          -- `_get_site` asserts `site in self.sites`
          if kc.1.2.2.site ∈ sitesOf T.geneseq then
            Except.ok
              ({ library := kc.1.1, sample := kc.1.2.1, mutation := kc.1.2.2,
                 count := kc.2,
                 mutation_type :=
                   classifyMutation gc.codonToAA mut_type kc.1.2.2,
                 site := kc.1.2.2.site } : MutCountRow)
          else Except.error PyErr.assertionError) with
        | .error e => .error e
        | .ok rows => .ok (insertionSortBy (mutRowLe librarylist samplelist) rows)

/-- A row of the barcode-variant input file for the
`substitutions_are_codon=True` path of `CodonVariantTable.__init__`
(the required columns; `extra_cols` empty). -/
structure InputRowC where
  library : String
  barcode : String
  substitutions : List Mut
  variant_call_support : Nat
deriving DecidableEq, Repr

/-- The `sort_values(['library', 'barcode'])` key of `__init__`, with
`library` ranked by the sorted library categories. -/
def bcvLe (libs : List String) (a b : BCVariant) : Bool :=
  if idxOf libs a.library < idxOf libs b.library then true
  else if idxOf libs b.library < idxOf libs a.library then false
  else strLeB a.barcode b.barcode

/-- One check of the post-construction validation loop of `__init__`
(codonvarianttable.py 807-826) on a codon substitution.  On a wildtype
mismatch the raise's f-string references the undefined global `codons`
(line 824 uses `codons[r]` instead of `self.codons[r]`), so that branch
aborts with `NameError` rather than `ValueError`. -/
def checkCodonMutLoop (geneseq : List Char) (m : Mut) : Option PyErr :=
  if ¬ (m.wt.length = 3 ∧ m.mutant.length = 3 ∧
      m.wt.all isNt = true ∧ m.mutant.all isNt = true) then
    some (.valueError ("invalid mutation " ++ m.str))
  else if m.site ∉ sitesOf geneseq then
    some (.valueError ("invalid site " ++ toString m.site))
  else if codonAt geneseq m.site ≠ m.wt then
    some (.nameError "codons")
  else if m.wt = m.mutant then
    some (.valueError ("invalid mutation " ++ m.str))
  else
    Option.none

/-- `CodonVariantTable.__init__` (codonvarianttable.py 730-833) for the
`substitutions_are_codon=True` path (`codonSubsFunc` the identity); the
nucleotide path differs only in first translating each row's
substitutions with `_ntToCodonMuts` (modelled as `ntToCodonMuts`) and is
not needed by the settled claims.  Inputs are modelled post
`geneseq.upper()` / `.fillna('')`. -/
def initCodon (gc : GeneticCode) (geneseq : List Char)
    (rows : List InputRowC) : Except PyErr CVTable :=
  -- `re.match('^[ATGC]+$', geneseq)`: fails for the empty string too
  if ¬ (geneseq ≠ [] ∧ geneseq.all isNt = true) then
    .error (.valueError "invalid nucleotides in geneseq")
  else if geneseq.length % 3 ≠ 0 ∨ geneseq.length = 0 then
    .error (.valueError "geneseq of invalid length")
  else
    let libraries := insertionSortBy strLeB (dedupFirst (rows.map (·.library)))
    if libraries.any (fun lib =>
        let bcs := (rows.filter (fun r => decide (r.library = lib))).map (·.barcode)
        decide (bcs.length ≠ (dedupFirst bcs).length)) then
      .error (.valueError "duplicated barcodes")
    else
      match rows.mapM (fun r =>
        (codonToAAMuts gc.codonToAA geneseq r.substitutions).map (fun aas =>
          ({ library := r.library, barcode := r.barcode,
             variant_call_support := r.variant_call_support,
             codon_substitutions := r.substitutions,
             aa_substitutions := aas,
             n_codon_substitutions := r.substitutions.length,
             n_aa_substitutions := aas.length } : BCVariant))) with
      | .error e => .error e
      | .ok bv0 =>
        let bv := insertionSortBy (bcvLe libraries) bv0
        match (bv.flatMap (·.codon_substitutions)).findSome?
            (checkCodonMutLoop geneseq) with
        | some e => .error e
        | Option.none =>
          .ok { geneseq := geneseq, libraries := libraries,
                valid_barcodes := libraries.map (fun lib =>
                  (lib, dedupFirst ((rows.filter
                    (fun r => decide (r.library = lib))).map (·.barcode)))),
                samples := libraries.map (fun lib => (lib, ([] : List String))),
                barcode_variant_df := bv,
                variant_count_df := Option.none }

/-- `CodonVariantTable.from_variant_count_df` (codonvarianttable.py
663-727) with the CSV write/read round trip taken as the identity on the
rows (file formatting is out of scope per the spec).  The required
column check `set(req_cols) < set(df.columns)` holds because a written
`variant_count_df` has the nine columns of `CountRow`, a proper superset
of the six required; the projection to `req_cols` and the
rename to `substitutions` are the `InputRowC` construction below. -/
def fromVariantCountDf (gc : GeneticCode) (geneseq : List Char)
    (df0 : List CountRow) (drop_all_libs : Bool) : Except PyErr CVTable :=
  let df := if drop_all_libs ∧ "all libraries" ∈ dedupFirst (df0.map (·.library))
    then df0.filter (fun r => decide (r.library ≠ "all libraries")) else df0
  let bvrows := dedupFirst (df.map (fun r =>
    ({ library := r.library, barcode := r.barcode,
       substitutions := r.codon_substitutions,
       variant_call_support := r.variant_call_support } : InputRowC)))
  match initCodon gc geneseq bvrows with
  | .error e => .error e
  | .ok cvt0 =>
    ((dedupFirst (df.map (·.sample))).flatMap (fun samp =>
      cvt0.libraries.map (fun lib => (samp, lib)))).foldlM
      (fun cvt p =>
        let idf := df.filter (fun r =>
          decide (r.sample = p.1) && decide (r.library = p.2))
        if idf.length = 0 then .ok cvt
        else
          match addSampleCounts cvt p.2 p.1
            (idf.map (fun r => (r.barcode, r.count))) with
          | (cvt', Option.none) => .ok cvt'
          | (_, some e) => .error e) cvt0

/-- Python `dict` equality for a dict of lists: equal key sets,
order-sensitive equality of the value lists. -/
def pyDictEqLists (d1 d2 : List (String × List String)) : Bool :=
  setEqB (d1.map (·.1)) (d2.map (·.1)) &&
  d1.all (fun p => ((d2.find? (·.1 = p.1)).map (·.2)).getD [] == p.2)

/-- Python `dict` equality for a dict of sets: equal key sets,
set-wise equality of the values. -/
def pyDictEqSets (d1 d2 : List (String × List String)) : Bool :=
  setEqB (d1.map (·.1)) (d2.map (·.1)) &&
  d1.all (fun p => setEqB p.2 (((d2.find? (·.1 = p.1)).map (·.2)).getD []))

/-- `CodonVariantTable.__eq__` (codonvarianttable.py 645-660): compare
every `__dict__` entry, DataFrames with `.equals` (row order included).
`sites`, `codons` and `aas` are functions of `geneseq` and equal when it
is; the constant `_mutation_type_colors` dict always compares equal. -/
def tableEq (T1 T2 : CVTable) : Bool :=
  (T1.geneseq == T2.geneseq) &&
  (T1.libraries == T2.libraries) &&
  pyDictEqSets T1.valid_barcodes T2.valid_barcodes &&
  pyDictEqLists T1.samples T2.samples &&
  (T1.barcode_variant_df == T2.barcode_variant_df) &&
  (T1.variant_count_df == T2.variant_count_df)

theorem dedupFirstAux_sublist {α : Type} [DecidableEq α] (l : List α) :
    ∀ seen, (dedupFirstAux l seen).Sublist l := by
  induction l with
  | nil => intro seen; simp [dedupFirstAux]
  | cons b l ih =>
    intro seen
    simp only [dedupFirstAux]
    by_cases hb : b ∈ seen
    · rw [if_pos hb]
      exact (ih seen).cons b
    · rw [if_neg hb]
      exact (ih (b :: seen)).cons₂ b

theorem dedupFirst_sublist {α : Type} [DecidableEq α] (l : List α) :
    (dedupFirst l).Sublist l :=
  dedupFirstAux_sublist l []

theorem dedupFirstAux_of_nodup {α : Type} [DecidableEq α] (l : List α) :
    ∀ seen, l.Nodup → (∀ a ∈ l, a ∉ seen) → dedupFirstAux l seen = l := by
  induction l with
  | nil => intro seen _ _; rfl
  | cons b l ih =>
    intro seen hnd hdisj
    simp only [dedupFirstAux]
    rw [if_neg (hdisj b (List.mem_cons_self b l))]
    congr 1
    refine ih (b :: seen) (List.nodup_cons.mp hnd).2 ?_
    intro a ha hc
    rcases List.mem_cons.mp hc with hc | hc
    · exact (List.nodup_cons.mp hnd).1 (hc ▸ ha)
    · exact hdisj a (List.mem_cons_of_mem b ha) hc

theorem dedupFirst_of_nodup {α : Type} [DecidableEq α] (l : List α)
    (h : l.Nodup) : dedupFirst l = l :=
  dedupFirstAux_of_nodup l [] h (fun a _ hc => (List.not_mem_nil a) hc)

theorem nodup_iff_dedupFirst_length {α : Type} [DecidableEq α] (l : List α) :
    l.Nodup ↔ (dedupFirst l).length = l.length := by
  constructor
  · intro h; rw [dedupFirst_of_nodup l h]
  · intro h
    have := (dedupFirst_sublist l).eq_of_length h
    rw [← this]
    exact nodup_dedupFirst l

theorem dictLookup_append (L : List (String × List String)) (lib samp : String)
    (hk : ∃ p ∈ L, p.1 = lib) :
    dictLookup (L.map (fun p => if p.1 = lib then (p.1, p.2 ++ [samp]) else p)) lib
      = dictLookup L lib ++ [samp] := by
  induction L with
  | nil => rcases hk with ⟨p, hp, _⟩; cases hp
  | cons q l ih =>
    by_cases h : q.1 = lib
    · simp only [List.map_cons, if_pos h, dictLookup, List.find?_cons,
        decide_eq_true h]
      rfl
    · simp only [List.map_cons, if_neg h, dictLookup, List.find?_cons]
      rw [show (decide (q.1 = lib)) = false from decide_eq_false h]
      exact ih (by
        rcases hk with ⟨p, hp, hpl⟩
        rcases List.mem_cons.mp hp with hp | hp
        · exact absurd (hp ▸ hpl) h
        · exact ⟨p, hp, hpl⟩)

/-- A minimal data-frame row for exercising `addMergedLibraries`. -/
def c8row (lib : String) : CountRow :=
  { barcode := "A", count := 1, library := lib, sample := "s",
    variant_call_support := 1, codon_substitutions := [],
    aa_substitutions := [], n_codon_substitutions := 0,
    n_aa_substitutions := 0 }

/-- C8 counterexample: the claim says `addMergedLibraries` fails on any
input containing a library named like the merged-library sentinel,
including when it is the only library.  But the code returns the input
unchanged whenever at most one library is present — the
`len(libs) <= 1` early return precedes the sentinel check — so a table
whose only library is literally `"all libraries"` is returned intact,
with no error. -/
theorem c8_counterexample :
    "all libraries" ∈ [c8row "all libraries"].map (·.library) ∧
    addMergedLibraries "all libraries" [c8row "all libraries"] =
      .ok [c8row "all libraries"] :=
  ⟨by decide, rfl⟩

/-- C8 (amended): with at most one library present,
`addMergedLibraries` returns its input unchanged (even when that
library is the sentinel); when the sentinel library is present among
two or more libraries, the call fails. -/
theorem c8_amended_thm (all_lib : String) (df : List CountRow) :
    ((dedupFirst (df.map (·.library))).length ≤ 1 →
      addMergedLibraries all_lib df = .ok df) ∧
    (all_lib ∈ df.map (·.library) →
      2 ≤ (dedupFirst (df.map (·.library))).length →
      addMergedLibraries all_lib df =
        .error (.valueError ("library " ++ all_lib ++ " already exists"))) := by
  constructor
  · intro h
    unfold addMergedLibraries
    rw [if_pos h]
  · intro hmem hlen
    unfold addMergedLibraries
    rw [if_neg (by omega), if_pos ((mem_dedupFirst _ _).mpr hmem)]

/-- C8 witness: with the sentinel library present next to a second
library, `addMergedLibraries` raises. -/
theorem c8_witness :
    2 ≤ (dedupFirst ([c8row "all libraries", c8row "libA"].map (·.library))).length ∧
    "all libraries" ∈ [c8row "all libraries", c8row "libA"].map (·.library) ∧
    addMergedLibraries "all libraries" [c8row "all libraries", c8row "libA"] =
      .error (.valueError ("library " ++ "all libraries" ++ " already exists")) :=
  ⟨by decide, by decide,
    (c8_amended_thm "all libraries" [c8row "all libraries", c8row "libA"]).2
      (by decide) (by decide)⟩

/-- What a successful `addSampleCounts` guarantees: the library was
known, the sample fresh, and the returned state appends the sample to
the library's `_samples` list, libraries unchanged. -/
theorem addSampleCounts_ok_facts (T : CVTable) (lib samp : String)
    (counts : List (String × Nat)) (T1 : CVTable)
    (h : addSampleCounts T lib samp counts = (T1, Option.none)) :
    lib ∈ T.libraries ∧ samp ∉ samplesOf T lib ∧
    T1.libraries = T.libraries ∧
    T1.samples = T.samples.map (fun p =>
      if p.1 = lib then (p.1, p.2 ++ [samp]) else p) := by
  unfold addSampleCounts at h
  split_ifs at h with h1 h2 h3 h4 h5 <;> injection h with hfst hsnd
  all_goals try exact Option.noConfusion hsnd
  refine ⟨h1, h2, ?_, ?_⟩ <;> rw [← hfst]

/-- C1: after a successful `addSampleCounts` for (library, sample), a
second call with the same library and sample fails with the
duplicate-sample `ValueError` and returns the table exactly as the
first call left it — same `variant_count_df`, same rows, same row
count.  (`__init__` keys `_samples` by every library, whence the
key-presence hypothesis.) -/
theorem c1_thm (T : CVTable) (lib samp : String)
    (c1 c2 : List (String × Nat)) (T1 : CVTable)
    (hk : ∃ p ∈ T.samples, p.1 = lib)
    (hfirst : addSampleCounts T lib samp c1 = (T1, Option.none)) :
    addSampleCounts T1 lib samp c2 =
      (T1, some (.valueError ("`library` " ++ lib ++ " already has `sample` "
        ++ samp))) := by
  rcases addSampleCounts_ok_facts T lib samp c1 T1 hfirst with
    ⟨hlib, _, hlibs1, hsamps1⟩
  have hsamp1 : samp ∈ samplesOf T1 lib := by
    show samp ∈ dictLookup T1.samples lib
    rw [hsamps1, dictLookup_append T.samples lib samp hk]
    exact List.mem_append_right _ (List.mem_singleton.mpr rfl)
  unfold addSampleCounts
  rw [if_neg (not_not_intro (hlibs1 ▸ hlib)), if_pos hsamp1]

/-- A one-variant `barcode_variant_df` row for concrete tables. -/
def c1bv : BCVariant :=
  { library := "L", barcode := "B", variant_call_support := 1,
    codon_substitutions := [], aa_substitutions := [],
    n_codon_substitutions := 0, n_aa_substitutions := 0 }

/-- A concrete one-library, one-barcode table with no samples added. -/
def c1T : CVTable :=
  { geneseq := "ATG".toList, libraries := ["L"],
    valid_barcodes := [("L", ["B"])], samples := [("L", [])],
    barcode_variant_df := [c1bv],
    variant_count_df := Option.none }

/-- C1 witness: on the concrete table, the first `addSampleCounts`
succeeds and the repeated call fails, leaving the table unchanged. -/
theorem c1_witness :
    (∃ p ∈ c1T.samples, p.1 = "L") ∧
    addSampleCounts c1T "L" "input" [("B", 3)] =
      ((addSampleCounts c1T "L" "input" [("B", 3)]).1, Option.none) ∧
    addSampleCounts (addSampleCounts c1T "L" "input" [("B", 3)]).1
        "L" "input" [("B", 5)] =
      ((addSampleCounts c1T "L" "input" [("B", 3)]).1,
        some (.valueError ("`library` " ++ "L" ++ " already has `sample` "
          ++ "input"))) :=
  ⟨⟨("L", []), List.mem_cons_self _ _, rfl⟩, rfl,
    c1_thm c1T "L" "input" [("B", 3)] [("B", 5)] _
      ⟨("L", []), List.mem_cons_self _ _, rfl⟩ rfl⟩

/-- C2: for a known library, `addSampleCounts` fails and leaves the
table unchanged whenever the barcode multiset of `barcodecounts` is not
exactly the library's valid-barcode set (a duplicate, a missing or an
extra barcode), and it can succeed only when the barcodes are distinct
and set-equal to the valid set. -/
theorem c2_thm (T : CVTable) (lib samp : String)
    (counts : List (String × Nat)) (hlib : lib ∈ T.libraries) :
    (¬ ((counts.map (·.1)).Nodup ∧
        ∀ b, b ∈ counts.map (·.1) ↔ b ∈ validBarcodesOf T lib) →
      (addSampleCounts T lib samp counts).2 ≠ Option.none ∧
      (addSampleCounts T lib samp counts).1 = T) ∧
    ((addSampleCounts T lib samp counts).2 = Option.none →
      ((counts.map (·.1)).Nodup ∧
        ∀ b, b ∈ counts.map (·.1) ↔ b ∈ validBarcodesOf T lib)) := by
  unfold addSampleCounts
  rw [if_neg (not_not_intro hlib)]
  by_cases h2 : samp ∈ samplesOf T lib
  · rw [if_pos h2]
    exact ⟨fun _ => ⟨by simp, rfl⟩, fun hnone => absurd hnone (by simp)⟩
  · rw [if_neg h2]
    by_cases h3 : counts.length ≠ (dedupFirst (counts.map (·.1))).length
    · rw [if_pos h3]
      exact ⟨fun _ => ⟨by simp, rfl⟩, fun hnone => absurd hnone (by simp)⟩
    · rw [if_neg h3]
      by_cases h4 : ¬(setEqB (dedupFirst (counts.map (·.1)))
          (validBarcodesOf T lib) = true)
      · rw [if_pos h4]
        exact ⟨fun _ => ⟨by simp, rfl⟩, fun hnone => absurd hnone (by simp)⟩
      · rw [if_neg h4]
        have hlen : (dedupFirst (counts.map (·.1))).length =
            (counts.map (·.1)).length := by
          rw [List.length_map]
          exact (not_ne_iff.mp h3).symm
        have hnodup : (counts.map (·.1)).Nodup :=
          (nodup_iff_dedupFirst_length _).mpr hlen
        have hseteq : ∀ b, b ∈ counts.map (·.1) ↔ b ∈ validBarcodesOf T lib := by
          have hs := (setEqB_iff _ _).mp (not_not.mp h4)
          intro b
          rw [← mem_dedupFirst (counts.map (·.1)) b]
          exact hs b
        exact ⟨fun hcontra => absurd ⟨hnodup, hseteq⟩ hcontra,
          fun _ => ⟨hnodup, hseteq⟩⟩

/-- Barcode counts with an extra unknown barcode `"C"`. -/
def c2counts : List (String × Nat) := [("B", 3), ("C", 2)]

/-- C2 witness: counts covering the unknown barcode `"C"` are rejected
and the concrete table is unchanged. -/
theorem c2_witness :
    ("L" ∈ c1T.libraries) ∧
    (¬ ((c2counts.map (·.1)).Nodup ∧
        ∀ b, b ∈ c2counts.map (·.1) ↔ b ∈ validBarcodesOf c1T "L")) ∧
    ((addSampleCounts c1T "L" "input" c2counts).2 ≠ Option.none ∧
      (addSampleCounts c1T "L" "input" c2counts).1 = c1T) :=
  ⟨by decide,
    fun hc => absurd ((hc.2 "C").mp (by decide)) (by decide),
    (c2_thm c1T "L" "input" c2counts (by decide)).1
      (fun hc => absurd ((hc.2 "C").mp (by decide)) (by decide))⟩

/-- Genetic code for the concrete round-trip input; its variants carry
no substitutions, so only the table's presence matters. -/
def c10gc : GeneticCode :=
  { codonToAA := fun c => if c = "ATG".toList then 'M' else 'X',
    CODONS := [], AAS_WITHSTOP := [] }

/-- Two libraries with one barcode each, no substitutions, for the
round-trip input table. -/
def c10rows : List InputRowC :=
  [ { library := "lib1", barcode := "A", substitutions := [],
      variant_call_support := 1 },
    { library := "lib2", barcode := "A", substitutions := [],
      variant_call_support := 1 } ]

/-- Chain `addSampleCounts` calls, propagating a raise. -/
def addOrFail (acc : Except PyErr CVTable) (lib samp : String)
    (counts : List (String × Nat)) : Except PyErr CVTable :=
  match acc with
  | .error e => .error e
  | .ok T =>
    match addSampleCounts T lib samp counts with
    | (T', Option.none) => .ok T'
    | (_, some e) => .error e

/-- The original table of the round-trip: samples s1, s2 added to both
libraries, but in per-library orders that differ
((lib1,s1), (lib1,s2), (lib2,s2), (lib2,s1)) — a legal call sequence. -/
def c10orig : Except PyErr CVTable :=
  addOrFail (addOrFail (addOrFail (addOrFail
    (initCodon c10gc "ATG".toList c10rows)
    "lib1" "s1" [("A", 4)]) "lib1" "s2" [("A", 3)])
    "lib2" "s2" [("A", 2)]) "lib2" "s1" [("A", 1)]

/-- The table reconstructed by `from_variant_count_df` from the written
`variant_count_df` of `c10orig`. -/
def c10recon : Except PyErr CVTable :=
  match c10orig with
  | .error e => .error e
  | .ok T =>
    match T.variant_count_df with
    | Option.none => .error (.valueError "no variant_count_df written")
    | some df => fromVariantCountDf c10gc "ATG".toList df true

/-- The `__eq__` comparison of the original and reconstructed tables. -/
def c10result : Except PyErr Bool :=
  match c10orig, c10recon with
  | .ok T, .ok T2 => .ok (tableEq T T2)
  | .error e, _ => .error e
  | _, .error e => .error e

/-- The claim's hypothesis at the concrete input: every added sample was
added to every library (extra columns are absent by construction). -/
def c10hyp : Except PyErr Bool :=
  match c10orig with
  | .error e => .error e
  | .ok T => .ok (T.libraries.all (fun lib =>
      (allSamplesOf T).all (fun s => decide (s ∈ samplesOf T lib))))

/-- C10: the round-trip claim — from_variant_count_df applied to a
written variant_count_df returns a table `==`-equal to the original —
fails on the code for a table satisfying all its hypotheses.  The
reconstruction loop iterates samples-major
(`for sample in df['sample'].unique(): for lib in cvt.libraries:`), so
every library's `_samples` list is rebuilt in one global order; the
original table had added s2 before s1 in lib2, and `__eq__` compares the
`_samples` dict, so the comparison is `False` (every other attribute,
including both data frames, round-trips here).  This contradicts the
method's own docstring, which promises "the CodonVariantTable used to
write variant_count_df_file". -/
theorem c10_roundtrip_not_eq :
    c10result = .ok false ∧
    c10hyp = .ok true ∧
    (c10orig.map (fun T => samplesOf T "lib2")) = .ok ["s2", "s1"] ∧
    (c10recon.map (fun T => samplesOf T "lib2")) = .ok ["s1", "s2"] ∧
    (c10orig.map (fun T => T.variant_count_df)) =
      (c10recon.map (fun T => T.variant_count_df)) ∧
    (c10orig.map (fun T => T.barcode_variant_df)) =
      (c10recon.map (fun T => T.barcode_variant_df)) :=
  ⟨rfl, rfl, rfl, rfl, rfl, rfl⟩

/-- Rows of `addMergedLibraries` come from the input frame, up to the
barcode/library rekeying of the merged copy. -/
theorem addMergedLibraries_all_mem (all_lib : String) (df df2 : List CountRow)
    (h : addMergedLibraries all_lib df = .ok df2) (Q : CountRow → Prop)
    (hQ : ∀ r ∈ df, Q r)
    (hQmap : ∀ r x y, Q r → Q { r with barcode := x, library := y }) :
    ∀ r ∈ df2, Q r := by
  simp only [addMergedLibraries] at h
  split_ifs at h with h1 h2
  all_goals try exact (Except.noConfusion h)
  all_goals rw [← Except.ok.inj h]
  all_goals try exact hQ
  intro r hr
  rcases List.mem_append.mp hr with hr | hr
  · exact hQ r hr
  · rcases List.mem_map.mp hr with ⟨r0, hr0, hr0e⟩
    rw [← hr0e]
    exact hQmap r0 _ _ (hQ r0 hr0)

/-- Row-property preservation through `_getPlotData`: a property stable
under the merged-library rekeying that holds of every source row
(`barcode_variant_df` rows under `samples=None`, `variant_count_df`
rows under `samples='all'`) holds of every returned row. -/
theorem getPlotData_pres (T : CVTable) (libs : LibrariesArg)
    (samps : SamplesArg) (ms : Nat) (df : List CountRow) (Q : CountRow → Prop)
    (hok : getPlotData T libs samps ms = .ok df)
    (hQmap : ∀ r x y, Q r → Q { r with barcode := x, library := y })
    (hnone : samps = SamplesArg.none →
      ∀ r0 ∈ T.barcode_variant_df, Q (r0.toCountRow "barcoded variants" 1))
    (hall : samps = SamplesArg.all →
      ∀ dfv, T.variant_count_df = some dfv → ∀ r ∈ dfv, Q r) :
    ∀ r ∈ df, Q r := by
  unfold getPlotData at hok
  rcases hsb : samplesBranch T samps with e | df0
  · rw [hsb] at hok; exact (Except.noConfusion hok)
  · rw [hsb] at hok
    dsimp only at hok
    have hQ0 : ∀ r ∈ df0, Q r := by
      cases samps with
      | none =>
        unfold samplesBranch at hsb
        have hd := Except.ok.inj hsb
        intro r hr
        rw [← hd] at hr
        rcases List.mem_map.mp hr with ⟨r0, hr0, hr0e⟩
        rw [← hr0e]
        exact hnone rfl r0 hr0
      | all =>
        unfold samplesBranch at hsb
        cases hv : T.variant_count_df with
        | none => rw [hv] at hsb; exact (Except.noConfusion hsb)
        | some dfv =>
          rw [hv] at hsb
          have hd := Except.ok.inj hsb
          intro r hr
          exact hall rfl dfv hv r (by rw [hd]; exact hr)
      | list ls =>
        simp only [samplesBranch] at hsb
        split_ifs at hsb <;> exact (Except.noConfusion hsb)
    split_ifs at hok with hl
    all_goals try exact (Except.noConfusion hok)
    rcases hlb : librariesBranch T libs
        (df0.filter (fun r => decide (ms ≤ r.variant_call_support))) with e | df2
    · rw [hlb] at hok; exact (Except.noConfusion hok)
    · rw [hlb] at hok
      dsimp only at hok
      split_ifs at hok with h2
      all_goals try exact (Except.noConfusion hok)
      · have hdf : df = df2 := (Except.ok.inj hok).symm
        have hQ1 : ∀ r ∈ df0.filter
            (fun r => decide (ms ≤ r.variant_call_support)), Q r :=
          fun r hr => hQ0 r (List.mem_of_mem_filter hr)
        subst hdf
        cases libs with
        | all =>
          exact addMergedLibraries_all_mem "all libraries" _ _ hlb Q hQ1 hQmap
        | all_only =>
          simp only [librariesBranch] at hlb
          rcases ham : addMergedLibraries "all libraries"
              (df0.filter (fun r => decide (ms ≤ r.variant_call_support)))
            with e | dm
          · rw [ham] at hlb; exact (Except.noConfusion hlb)
          · rw [ham] at hlb
            have hd := Except.ok.inj hlb
            intro r hr
            rw [← hd] at hr
            exact addMergedLibraries_all_mem "all libraries" _ _ ham Q hQ1
              hQmap r (List.mem_of_mem_filter hr)
        | list ls =>
          simp only [librariesBranch] at hlb
          split_ifs at hlb with hx1 hx2
          all_goals try exact (Except.noConfusion hlb)
          have hd := Except.ok.inj hlb
          intro r hr
          rw [← hd] at hr
          exact hQ1 r (List.mem_of_mem_filter hr)

/-- Counting an element in a duplicate-free list yields 1 or 0
according to membership. -/
theorem countP_eq_ite_of_nodup {α : Type} [DecidableEq α] (l : List α) (k : α)
    (h : l.Nodup) :
    l.countP (fun x => decide (x = k)) = if k ∈ l then 1 else 0 := by
  induction l with
  | nil => simp
  | cons a t ih =>
    rcases List.nodup_cons.mp h with ⟨ha, ht⟩
    rw [List.countP_cons, ih ht]
    by_cases hak : a = k
    · subst hak
      simp [ha]
    · simp [hak, Ne.symm hak, List.mem_cons]

/-- A `mapM` whose function succeeds pointwise is the successful map. -/
theorem mapM_ok_of_forall {α β : Type} (f : α → Except PyErr β) (g : α → β)
    (l : List α) (h : ∀ a ∈ l, f a = .ok (g a)) : l.mapM f = .ok (l.map g) := by
  induction l with
  | nil => rfl
  | cons a t ih =>
    rw [List.mapM_cons, h a (List.mem_cons_self a t),
      ih (fun x hx => h x (List.mem_cons_of_mem a hx))]
    rfl

/-- Every mutation of the `mut_list` enumeration sits at a site of the
gene. -/
theorem site_mem_of_mem_mcMutList (gc : GeneticCode) (gene : List Char)
    (mt : String) (m : Mut) (h : m ∈ mcMutList gc gene mt) :
    m.site ∈ sitesOf gene := by
  rcases List.mem_flatMap.mp h with ⟨r, hr, hm⟩
  rcases List.mem_map.mp hm with ⟨mc, _, hmc⟩
  rw [← hmc]
  exact hr

/-- The keys of the `all_muts` zero-count frame are exactly the
product librarylist x samplelist x mut_list. -/
theorem mem_allMutsRows_keys (ll sl : List String) (ml : List Mut)
    (k : String × String × Mut) :
    k ∈ (allMutsRows ll sl ml).map mkKey ↔
      k.1 ∈ ll ∧ k.2.1 ∈ sl ∧ k.2.2 ∈ ml := by
  rcases k with ⟨lib, samp, m⟩
  constructor
  · intro h
    rcases List.mem_map.mp h with ⟨x, hx, hk⟩
    rcases List.mem_flatMap.mp hx with ⟨p, hp, hx2⟩
    rcases List.mem_map.mp hx2 with ⟨m0, hm0, hxe⟩
    rcases List.mem_flatMap.mp hp with ⟨lib0, hlib0, hp2⟩
    rcases List.mem_map.mp hp2 with ⟨samp0, hsamp0, hpe⟩
    subst hpe
    subst hxe
    injection hk with h1 h2
    injection h2 with h2 h3
    subst h1; subst h2; subst h3
    exact ⟨hlib0, hsamp0, hm0⟩
  · rintro ⟨hl, hs, hm⟩
    exact List.mem_map.mpr ⟨(lib, samp, m, 0),
      List.mem_flatMap.mpr ⟨(lib, samp),
        List.mem_flatMap.mpr ⟨lib, hl, List.mem_map.mpr ⟨samp, hs, rfl⟩⟩,
        List.mem_map.mpr ⟨m, hm, rfl⟩⟩, rfl⟩

/-- Every split per-variant mutation row carries the library, sample
and one mutation of some source data-frame row. -/
theorem mem_splitRows (mt : String) (dfF : List CountRow)
    (x : String × String × Mut × Nat) (h : x ∈ splitRows mt dfF) :
    ∃ r ∈ dfF, x.1 = r.library ∧ x.2.1 = r.sample ∧ x.2.2.1 ∈ r.gmuts mt := by
  rcases List.mem_flatMap.mp h with ⟨r, hr, hx⟩
  rcases List.mem_map.mp hx with ⟨m, hm, hxe⟩
  subst hxe
  exact ⟨r, hr, rfl, rfl, hm⟩

/-- `mutCounts` propagates a `_getPlotData` failure. -/
theorem mutCounts_err_getPlotData (gc : GeneticCode) (T : CVTable)
    (vt mt : String) (libs : LibrariesArg) (samps : SamplesArg) (ms : Nat)
    (e : PyErr) (hgp : getPlotData T libs samps ms = .error e) :
    mutCounts gc T vt mt libs samps ms = .error e := by
  unfold mutCounts
  rw [hgp]

/-- `mutCounts` rejects an invalid `mut_type`. -/
theorem mutCounts_bad_mt (gc : GeneticCode) (T : CVTable)
    (vt mt : String) (libs : LibrariesArg) (samps : SamplesArg) (ms : Nat)
    (df : List CountRow) (hgp : getPlotData T libs samps ms = .ok df)
    (hmt : mt ≠ "codon" ∧ mt ≠ "aa") :
    mutCounts gc T vt mt libs samps ms =
      .error (.valueError ("invalid mut_type " ++ mt)) := by
  unfold mutCounts
  rw [hgp]
  dsimp only
  rw [if_pos hmt]

/-- `mutCounts` rejects an invalid `variant_type`. -/
theorem mutCounts_bad_vt (gc : GeneticCode) (T : CVTable)
    (vt mt : String) (libs : LibrariesArg) (samps : SamplesArg) (ms : Nat)
    (df : List CountRow) (hgp : getPlotData T libs samps ms = .ok df)
    (hmt : ¬ (mt ≠ "codon" ∧ mt ≠ "aa"))
    (hvt : vt ≠ "single" ∧ vt ≠ "all") :
    mutCounts gc T vt mt libs samps ms =
      .error (.valueError ("invalid variant_type " ++ vt)) := by
  unfold mutCounts
  rw [hgp]
  dsimp only
  rw [if_neg hmt, if_pos hvt]

/-- Closed form of a successful `mutCounts` call: the grouped counts
over the split rows merged with the zero-count enumeration, sorted by
the four-column key (provided every grouped key passes the
`_get_site` assertion). -/
theorem mutCounts_ok_shape (gc : GeneticCode) (T : CVTable)
    (vt mt : String) (libs : LibrariesArg) (samps : SamplesArg) (ms : Nat)
    (df : List CountRow) (hgp : getPlotData T libs samps ms = .ok df)
    (hmt : ¬ (mt ≠ "codon" ∧ mt ≠ "aa"))
    (hvt : ¬ (vt ≠ "single" ∧ vt ≠ "all"))
    (hsites : ∀ kc ∈ groupedRows (splitRows mt (vtFilter vt mt df) ++
        allMutsRows (dedupFirst (df.map (fun r => r.library)))
          (dedupFirst (df.map (fun r => r.sample)))
          (mcMutList gc T.geneseq mt)), kc.1.2.2.site ∈ sitesOf T.geneseq) :
    mutCounts gc T vt mt libs samps ms = .ok
      (insertionSortBy
        (mutRowLe (dedupFirst (df.map (fun r => r.library)))
          (dedupFirst (df.map (fun r => r.sample))))
        ((groupedRows (splitRows mt (vtFilter vt mt df) ++
            allMutsRows (dedupFirst (df.map (fun r => r.library)))
              (dedupFirst (df.map (fun r => r.sample)))
              (mcMutList gc T.geneseq mt))).map (fun kc =>
          ({ library := kc.1.1, sample := kc.1.2.1, mutation := kc.1.2.2,
             count := kc.2,
             mutation_type := classifyMutation gc.codonToAA mt kc.1.2.2,
             site := kc.1.2.2.site } : MutCountRow)))) := by
  unfold mutCounts
  rw [hgp]
  dsimp only
  rw [if_neg hmt, if_neg hvt]
  rw [mapM_ok_of_forall _ (fun kc =>
      ({ library := kc.1.1, sample := kc.1.2.1, mutation := kc.1.2.2,
         count := kc.2,
         mutation_type := classifyMutation gc.codonToAA mt kc.1.2.2,
         site := kc.1.2.2.site } : MutCountRow)) _
    (fun kc hkc => by
      dsimp only
      rw [if_pos (hsites kc hkc)])]

/-- Each (library, sample, mutation) key occurs in the grouped result
rows exactly once or not at all, according to key membership. -/
theorem countP_key_rows (combined : List (String × String × Mut × Nat))
    (ctAA : List Char → Char) (mt : String) (k : String × String × Mut) :
    ((groupedRows combined).map (fun kc =>
      ({ library := kc.1.1, sample := kc.1.2.1, mutation := kc.1.2.2,
         count := kc.2, mutation_type := classifyMutation ctAA mt kc.1.2.2,
         site := kc.1.2.2.site } : MutCountRow))).countP
      (fun row => decide ((row.library, row.sample, row.mutation) = k)) =
    if k ∈ dedupFirst (combined.map mkKey) then 1 else 0 := by
  rw [List.countP_map]
  simp only [groupedRows]
  rw [List.countP_map]
  show List.countP (fun x => decide (x = k))
      (dedupFirst (List.map mkKey combined)) = _
  refine (countP_eq_ite_of_nodup (dedupFirst (combined.map mkKey)) k
    (nodup_dedupFirst _)).trans ?_
  congr 1

/-- When every data-frame mutation lies in `mut_list`, the grouped
keys are exactly librarylist x samplelist x mut_list. -/
theorem keys_characterization (gc : GeneticCode) (T : CVTable) (vt mt : String)
    (df : List CountRow)
    (hQ : ∀ r ∈ df, ∀ m ∈ CountRow.gmuts mt r, m ∈ mcMutList gc T.geneseq mt)
    (k : String × String × Mut) :
    k ∈ dedupFirst ((splitRows mt (vtFilter vt mt df) ++
        allMutsRows (dedupFirst (df.map (fun r => r.library)))
          (dedupFirst (df.map (fun r => r.sample)))
          (mcMutList gc T.geneseq mt)).map mkKey) ↔
      k.1 ∈ dedupFirst (df.map (fun r => r.library)) ∧
      k.2.1 ∈ dedupFirst (df.map (fun r => r.sample)) ∧
      k.2.2 ∈ mcMutList gc T.geneseq mt := by
  rw [mem_dedupFirst, List.map_append, List.mem_append]
  constructor
  · rintro (hk | hk)
    · rcases List.mem_map.mp hk with ⟨x, hx, hxe⟩
      rcases mem_splitRows mt _ x hx with ⟨r, hr, h1, h2, h3⟩
      have hrdf : r ∈ df := List.mem_of_mem_filter hr
      subst hxe
      refine ⟨?_, ?_, ?_⟩
      · exact (mem_dedupFirst _ _).mpr (List.mem_map.mpr ⟨r, hrdf, h1.symm⟩)
      · exact (mem_dedupFirst _ _).mpr (List.mem_map.mpr ⟨r, hrdf, h2.symm⟩)
      · exact hQ r hrdf x.2.2.1 h3
    · exact (mem_allMutsRows_keys _ _ _ k).mp hk
  · intro h
    exact Or.inr ((mem_allMutsRows_keys _ _ _ k).mpr h)

/-- Under the same validity hypothesis every grouped key passes the
`_get_site` assertion. -/
theorem sites_ok_of_valid (gc : GeneticCode) (T : CVTable) (vt mt : String)
    (df : List CountRow)
    (hQ : ∀ r ∈ df, ∀ m ∈ CountRow.gmuts mt r, m ∈ mcMutList gc T.geneseq mt) :
    ∀ kc ∈ groupedRows (splitRows mt (vtFilter vt mt df) ++
        allMutsRows (dedupFirst (df.map (fun r => r.library)))
          (dedupFirst (df.map (fun r => r.sample)))
          (mcMutList gc T.geneseq mt)), kc.1.2.2.site ∈ sitesOf T.geneseq := by
  intro kc hkc
  simp only [groupedRows] at hkc
  rcases List.mem_map.mp hkc with ⟨k, hk, hke⟩
  rcases (keys_characterization gc T vt mt df hQ k).mp hk with ⟨_, _, hm⟩
  rw [← hke]
  exact site_mem_of_mem_mcMutList gc T.geneseq mt k.2.2 hm

/-- C3 (amended): for the `samples` arguments that survive (`None` and
`'all'`; an explicit sample list aborts with `UnboundLocalError`, see
the counterexample), and for a table whose substitution entries lie in
the mutation alphabet, a successful `mutCounts` call returns exactly
one row per (library, sample, mutation) triple — the mutation ranging
over every (wildtype-at-site, other-alphabet-symbol) pair at every
site, the libraries and samples over the distinct values of the frame
in scope — including count-0 rows; and under `samples=None` every
source row counts each barcode once under the sample name
'barcoded variants'. -/
theorem c3_amended_thm (gc : GeneticCode) (T : CVTable)
    (vt mt : String) (libs : LibrariesArg) (samps : SamplesArg) (ms : Nat)
    (rows : List MutCountRow)
    (hok : mutCounts gc T vt mt libs samps ms = .ok rows)
    (hbv : samps = SamplesArg.none → ∀ r ∈ T.barcode_variant_df,
      ∀ m ∈ CountRow.gmuts mt (r.toCountRow "barcoded variants" 1),
        m ∈ mcMutList gc T.geneseq mt)
    (hvc : samps = SamplesArg.all → ∀ dfv, T.variant_count_df = some dfv →
      ∀ r ∈ dfv, ∀ m ∈ CountRow.gmuts mt r, m ∈ mcMutList gc T.geneseq mt) :
    ∃ df, getPlotData T libs samps ms = .ok df ∧
      (samps = SamplesArg.none →
        ∀ r ∈ df, r.sample = "barcoded variants" ∧ r.count = 1) ∧
      ∀ lib samp m,
        rows.countP (fun row =>
            decide ((row.library, row.sample, row.mutation) = (lib, samp, m))) =
          if lib ∈ dedupFirst (df.map (fun r => r.library)) ∧
              samp ∈ dedupFirst (df.map (fun r => r.sample)) ∧
              m ∈ mcMutList gc T.geneseq mt
          then 1 else 0 := by
  rcases hgp : getPlotData T libs samps ms with e | df
  · rw [mutCounts_err_getPlotData gc T vt mt libs samps ms e hgp] at hok
    exact (Except.noConfusion hok)
  by_cases hmt : mt ≠ "codon" ∧ mt ≠ "aa"
  · rw [mutCounts_bad_mt gc T vt mt libs samps ms df hgp hmt] at hok
    exact (Except.noConfusion hok)
  by_cases hvt : vt ≠ "single" ∧ vt ≠ "all"
  · rw [mutCounts_bad_vt gc T vt mt libs samps ms df hgp hmt hvt] at hok
    exact (Except.noConfusion hok)
  have hQ : ∀ r ∈ df, ∀ m ∈ CountRow.gmuts mt r,
      m ∈ mcMutList gc T.geneseq mt :=
    getPlotData_pres T libs samps ms df
      (fun r => ∀ m ∈ CountRow.gmuts mt r, m ∈ mcMutList gc T.geneseq mt)
      hgp (fun r x y h => h) (fun hs r0 hr0 => hbv hs r0 hr0) hvc
  rw [mutCounts_ok_shape gc T vt mt libs samps ms df hgp hmt hvt
    (sites_ok_of_valid gc T vt mt df hQ)] at hok
  have hrows := (Except.ok.inj hok).symm
  subst hrows
  refine ⟨df, rfl, ?_, ?_⟩
  · intro hs r hr
    exact getPlotData_pres T libs samps ms df
      (fun r => r.sample = "barcoded variants" ∧ r.count = 1) hgp
      (fun r x y h => h) (fun _ r0 _ => ⟨rfl, rfl⟩)
      (by intro ha; rw [hs] at ha; exact SamplesArg.noConfusion ha) r hr
  · intro lib samp m
    rw [countP_insertionSortBy]
    rw [countP_key_rows _ gc.codonToAA mt (lib, samp, m)]
    exact if_congr (keys_characterization gc T vt mt df hQ (lib, samp, m))
      rfl rfl

/-- A two-codon genetic code for the C3 concrete instances. -/
def c3gc : GeneticCode :=
  { codonToAA := fun _ => 'X', CODONS := ["ATG".toList, "GGG".toList],
    AAS_WITHSTOP := [] }

/-- The concrete one-library table with sample `s1` added. -/
def c3T : CVTable := (addSampleCounts c1T "L" "s1" [("B", 2)]).1

/-- The single (zero-count) row `mutCounts` returns on the concrete
instance. -/
def c3row : MutCountRow :=
  { library := "L", sample := "s1",
    mutation := ⟨"ATG".toList, 1, "GGG".toList⟩, count := 0,
    mutation_type := "synonymous", site := 1 }

/-- C3 counterexample: on a table with sample `s1` added, calling
`mutCounts` with the in-scope, duplicate-free explicit sample list
`['s1']` does not return the enumerated rows at all — it aborts with
`UnboundLocalError` on `df`, because the `isinstance(samples, list)`
branch of `_getPlotData` reads the local `df` before any assignment.
The claim therefore fails for a valid argument combination it
quantifies over. -/
theorem c3_counterexample :
    mutCounts c3gc c3T "all" "codon" LibrariesArg.all
      (SamplesArg.list ["s1"]) 1 = .error (.unboundLocal "df") ∧
    (∀ s ∈ ["s1"], s ∈ allSamplesOf c3T) ∧
    (["s1"] : List String).Nodup :=
  ⟨rfl, by decide, by decide⟩

/-- C3 witness: the amended theorem applied on the concrete table with
`samples='all'`; the single returned row is the count-0 row of the one
non-wildtype codon at the one site. -/
theorem c3_witness :
    ∃ df, getPlotData c3T LibrariesArg.all SamplesArg.all 1 = .ok df ∧
      (SamplesArg.all = SamplesArg.none →
        ∀ r ∈ df, r.sample = "barcoded variants" ∧ r.count = 1) ∧
      ∀ lib samp m,
        ([c3row].countP (fun row =>
            decide ((row.library, row.sample, row.mutation) =
              (lib, samp, m)))) =
          if lib ∈ dedupFirst (df.map (fun r => r.library)) ∧
              samp ∈ dedupFirst (df.map (fun r => r.sample)) ∧
              m ∈ mcMutList c3gc c3T.geneseq "codon"
          then 1 else 0 :=
  c3_amended_thm c3gc c3T "all" "codon" LibrariesArg.all SamplesArg.all 1
    [c3row] (by rfl)
    (by intro h; exact SamplesArg.noConfusion h)
    (by intro _ dfv hdfv; injection hdfv with h; subst h; decide)
